import Mathlib

/-!
# LLMCallGateway — shallow embedding and verification

This file embeds the core of the LLMCallGateway repository in Lean 4 and
proves (or refutes) the specified properties of:

* `app/utils/helpers.py` — `calculate_tokens_estimate`;
* `app/services/metrics.py` — `MetricsCollector`;
* `app/core/logging.py` — `LLMInteractionLogger`;
* `app/services/llm_service.py` — `_prepare_litellm_request` and
  `_handle_stream_completion` (the streaming aggregator).

Modelling conventions:

* Python `dict`s (insertion ordered, unique keys) are association lists
  `List (String × α)`.  Assignment `d[k] = v` replaces the first binding in
  place or appends a new one (`dictInsert`); `del d[k]` / `dict.pop`
  removes the binding (`dictErase`); `k in d` is `dictLookup` success.
* Python `float` time stamps are `Rat`; wall-clock reads (`time.time()`,
  `datetime.now().isoformat()`, `time.strftime`) are threaded in as
  explicit parameters, since they are ambient inputs of the code.
* A Python value of heterogeneous JSON shape is `JVal`.
* Truthiness is made explicit: a string is truthy iff nonempty, a list
  iff nonempty, `None` is falsy.
-/

/-- Insertion-ordered association list insert: replaces the first binding of
`k` in place, else appends — the semantics of Python `d[k] = v`. -/
def dictInsert {α : Type} (k : String) (v : α) : List (String × α) → List (String × α)
  | [] => [(k, v)]
  | p :: rest => if p.1 = k then (k, v) :: rest else p :: dictInsert k v rest

/-- Lookup of the first binding of `k` — Python `d.get(k)` / `d[k]`. -/
def dictLookup {α : Type} (k : String) : List (String × α) → Option α
  | [] => none
  | p :: rest => if p.1 = k then some p.2 else dictLookup k rest

/-- Removal of the bindings of `k` — Python `del d[k]` / `d.pop(k)`.  On a
dict-like list (unique keys) this removes exactly the one binding. -/
def dictErase {α : Type} (k : String) (l : List (String × α)) : List (String × α) :=
  l.filter (fun p => !(p.1 == k))

/-- Keys of an association list, in order. -/
def dictKeys {α : Type} (l : List (String × α)) : List String :=
  l.map Prod.fst

/-- Python truthiness of an optional string: `None` and `""` are falsy. -/
def optStrTruthy : Option String → Bool
  | some s => !s.isEmpty
  | none => false

/-! ## JSON-shaped Python values -/

/-- A heterogeneous Python/JSON value, as handled by the logging and
request-preparation code. -/
inductive JVal where
  | null : JVal
  | bool (b : Bool) : JVal
  | num (q : Rat) : JVal
  | str (s : String) : JVal
  | arr (xs : List JVal) : JVal
  | obj (fields : List (String × JVal)) : JVal

/-- Field lookup on an object value; `none` on non-objects. -/
def JVal.objLookup (k : String) : JVal → Option JVal
  | .obj fields => dictLookup k fields
  | .null => none
  | .bool _ => none
  | .num _ => none
  | .str _ => none
  | .arr _ => none

/-! ## `app/utils/helpers.py` — `calculate_tokens_estimate`

```python
def calculate_tokens_estimate(text: str) -> int:
    if not text:
        return 0
    chinese_chars = sum(1 for char in text if '一' <= char <= '鿿')
    total_chars = len(text)
    english_chars = total_chars - chinese_chars
    estimated_tokens = (chinese_chars / 1.5) + (english_chars / 4.0)
    return max(1, int(estimated_tokens))
```

The float arithmetic is modelled over `Rat`: the true value is a multiple
of `1/12`; whenever it is an integer both float divisions are exact, and
otherwise the distance to the nearest integer (≥ 1/12) dwarfs the float
rounding error, so `int(...)` computes the exact rational floor. -/

/-- `'一' <= char <= '鿿'` — the Han code-point test. -/
def hanCharB (c : Char) : Bool :=
  decide (0x4e00 ≤ c.toNat) && decide (c.toNat ≤ 0x9fff)

/-- Number of Han-range code points of a string (`chinese_chars`). -/
def hanCountStr (text : String) : Nat :=
  text.data.countP hanCharB

/-- `calculate_tokens_estimate` from `app/utils/helpers.py`. -/
def calculate_tokens_estimate (text : String) : Nat :=
  if text.length = 0 then 0
  else
    let chinese_chars : Nat := hanCountStr text
    let total_chars : Nat := text.length
    let english_chars : Nat := total_chars - chinese_chars
    let estimated_tokens : Rat := (chinese_chars : Rat) / (3 / 2) + (english_chars : Rat) / 4
    max 1 (Int.toNat ⌊estimated_tokens⌋)

/-- Modelled from the spec's words (claim C6), for comparison with the
source function `calculate_tokens_estimate`: the spec prescribes
`tokens = round(han_count / 1.5 + other_count / 4.0)`, floored to 1 for
nonempty input and 0 for empty input.  `round` is round-half-up here;
Python rounds half to even, but the comparison input avoids exact halves,
where the two conventions agree. -/
def specTokensEstimateRound (text : String) : Nat :=
  if text.length = 0 then 0
  else
    let han_count : Nat := hanCountStr text
    let other_count : Nat := text.length - han_count
    max 1 (Int.toNat (round ((han_count : Rat) / (3 / 2) + (other_count : Rat) / 4)))

/-! ## `app/services/metrics.py` — `MetricsCollector`

State and operations of the collector.  The source protects every mutating
operation with one lock and performs no I/O inside it; the interleaving of
whole operations is therefore modelled as a sequence of atomic steps.
`time.time()` at completion and the local-time hour bucket of
`time.strftime('%Y-%m-%d-%H', time.localtime(t))` are ambient inputs,
passed respectively as `now : Rat` and an abstract `hourKeyFn`. -/

/-- `RequestMetrics` dataclass (`metrics.py`). -/
structure RequestMetrics where
  request_id : String
  model : String
  start_time : Rat
  end_time : Option Rat := none
  success : Bool := true
  error_message : Option String := none
  prompt_tokens : Nat := 0
  completion_tokens : Nat := 0
  total_tokens : Nat := 0
  user_id : Option String := none
  stream : Bool := false
  request_type : String := "chat"

/-- `RequestMetrics.duration`: `end_time - start_time`, falling back to the
current wall clock while the request is still active. -/
def RequestMetrics.duration (now : Rat) (m : RequestMetrics) : Rat :=
  match m.end_time with
  | none => now - m.start_time
  | some e => e - m.start_time

/-- `RequestContext` (from `api_models.py`), the descriptor passed to
`start_request`. -/
structure RequestContext where
  request_id : String
  start_time : Rat
  model : String
  user_id : Option String := none
  stream : Bool := false
  request_type : String := "chat"

/-- One bucket of `_hourly_stats` (a `defaultdict` entry). -/
structure HourStats where
  requests : Nat := 0
  tokens : Nat := 0
  duration : Rat := 0
  errors : Nat := 0

/-- The mutable state of a `MetricsCollector`. -/
structure MetricsState where
  maxHistory : Nat := 10000
  active : List (String × RequestMetrics) := []
  completed : List RequestMetrics := []
  total_requests : Nat := 0
  total_tokens : Nat := 0
  total_duration : Rat := 0
  success_count : Nat := 0
  model_usage : List (String × Nat) := []
  hourly_stats : List (String × HourStats) := []

/-- `MetricsCollector.__init__(max_history)`. -/
def metricsInit (max_history : Nat) : MetricsState :=
  { maxHistory := max_history }

/-- Ids of the requests in the active table. -/
def activeIds (st : MetricsState) : List String :=
  dictKeys st.active

/-- `request_id`s of the entries in the completed-history deque. -/
def completedIds (st : MetricsState) : List String :=
  st.completed.map RequestMetrics.request_id

/-- `deque(maxlen).append`: append on the right, evict oldest entries on
the left when the bound is exceeded. -/
def dequeAppend (maxlen : Nat) (l : List RequestMetrics) (x : RequestMetrics) : List RequestMetrics :=
  let l' := l ++ [x]
  if maxlen < l'.length then l'.drop (l'.length - maxlen) else l'

/-- The `RequestMetrics` record `start_request` creates from a context. -/
def startEntry (context : RequestContext) : RequestMetrics :=
  { request_id := context.request_id
    model := context.model
    start_time := context.start_time
    user_id := context.user_id
    stream := context.stream
    request_type := context.request_type }

/-- `MetricsCollector.start_request`. -/
def MetricsState.startRequest (st : MetricsState) (context : RequestContext) :
    MetricsState × RequestMetrics :=
  let metrics : RequestMetrics := startEntry context
  ({ st with active := dictInsert context.request_id metrics st.active }, metrics)

/-- `MetricsCollector._update_aggregated_stats` (lock already held). -/
def MetricsState.updateAggregatedStats (hourKeyFn : Rat → String) (st : MetricsState)
    (metrics : RequestMetrics) (now : Rat) : MetricsState :=
  let st := { st with
    total_requests := st.total_requests + 1
    total_tokens := st.total_tokens + metrics.total_tokens
    total_duration := st.total_duration + metrics.duration now }
  let st := if metrics.success then { st with success_count := st.success_count + 1 } else st
  let st := { st with
    model_usage :=
      dictInsert metrics.model ((dictLookup metrics.model st.model_usage).getD 0 + 1) st.model_usage }
  let hour_key := hourKeyFn metrics.start_time
  let hour_stats := (dictLookup hour_key st.hourly_stats).getD {}
  let hour_stats := { hour_stats with
    requests := hour_stats.requests + 1
    tokens := hour_stats.tokens + metrics.total_tokens
    duration := hour_stats.duration + metrics.duration now
    errors := hour_stats.errors + (if metrics.success then 0 else 1) }
  { st with hourly_stats := dictInsert hour_key hour_stats st.hourly_stats }

/-- `MetricsCollector.complete_request`: `None` (and no state change) when
the id is not active; otherwise pop the entry from the active table, stamp
it, append it to the bounded history and update the aggregates. -/
def MetricsState.completeRequest (hourKeyFn : Rat → String) (st : MetricsState)
    (request_id : String) (success : Bool) (error_message : Option String)
    (prompt_tokens completion_tokens : Nat) (total_tokens : Option Nat) (now : Rat) :
    MetricsState × Option RequestMetrics :=
  match dictLookup request_id st.active with
  | none => (st, none)
  | some m0 =>
    let metrics : RequestMetrics := { m0 with
      end_time := some now
      success := success
      error_message := error_message
      prompt_tokens := prompt_tokens
      completion_tokens := completion_tokens
      total_tokens := total_tokens.getD (prompt_tokens + completion_tokens) }
    let st := { st with
      active := dictErase request_id st.active
      completed := dequeAppend st.maxHistory st.completed metrics }
    (st.updateAggregatedStats hourKeyFn metrics now, some metrics)

/-- `MetricsCollector.reset_stats`. -/
def MetricsState.resetStats (st : MetricsState) : MetricsState :=
  { maxHistory := st.maxHistory }

/-- An operation on the collector, for reasoning about op sequences. -/
inductive MOp where
  | start (context : RequestContext)
  | complete (request_id : String) (success : Bool) (error_message : Option String)
      (prompt_tokens completion_tokens : Nat) (total_tokens : Option Nat) (now : Rat)
  | reset

/-- Apply one operation to the collector state. -/
def MetricsState.applyOp (hourKeyFn : Rat → String) (st : MetricsState) : MOp → MetricsState
  | .start context => (st.startRequest context).1
  | .complete request_id success error_message prompt_tokens completion_tokens total_tokens now =>
    (st.completeRequest hourKeyFn request_id success error_message
      prompt_tokens completion_tokens total_tokens now).1
  | .reset => st.resetStats

/-- Run a sequence of operations. -/
def MetricsState.runOps (hourKeyFn : Rat → String) (st : MetricsState) (ops : List MOp) :
    MetricsState :=
  ops.foldl (MetricsState.applyOp hourKeyFn) st

/-- The ids handed to `start_request` in an op sequence. -/
def startIdsOf (ops : List MOp) : List String :=
  ops.filterMap (fun op => match op with | .start context => some context.request_id | _ => none)

/-- The collector invariant carried through op sequences: active entries
carry their key as `request_id`, every id in the collector was started,
and the active and completed id sets are disjoint. -/
def MInv (started : List String) (st : MetricsState) : Prop :=
  (∀ p ∈ st.active, p.2.request_id = p.1)
  ∧ (∀ a ∈ activeIds st, a ∈ started)
  ∧ (∀ c ∈ completedIds st, c ∈ started)
  ∧ (∀ a ∈ activeIds st, a ∉ completedIds st)

/-- The stamped entry that `complete_request` moves to the history (the
record popped from the active table with completion fields filled in). -/
def completedEntry (m0 : RequestMetrics) (success : Bool) (error_message : Option String)
    (prompt_tokens completion_tokens : Nat) (total_tokens : Option Nat) (now : Rat) :
    RequestMetrics :=
  { m0 with
    end_time := some now
    success := success
    error_message := error_message
    prompt_tokens := prompt_tokens
    completion_tokens := completion_tokens
    total_tokens := total_tokens.getD (prompt_tokens + completion_tokens) }

/-! ## `app/core/logging.py` — `LLMInteractionLogger`

The loguru sink is modelled as the ordered list of structured records the
logger has emitted; `datetime.now().isoformat()` is an explicit `ts`
parameter. -/

/-- One live entry of `self.interactions` (`start_interaction`'s dict). -/
structure Interaction where
  timestamp : String
  request_id : String
  downstream_provider : String
  downstream_request : JVal
  downstream_response : Option JVal := none
  processing_time : Option Rat := none
  status : String := "pending"
  error : Option String := none

/-- A record written to the interaction-log sink: either a full interaction
record (`complete_interaction`) or the minimal error-only record of
`log_error_interaction` for an unknown id. -/
inductive SinkRecord where
  | interaction (i : Interaction)
  | errorOnly (timestamp : String) (request_id : String) (error : String) (context : String)

/-- The state of the `LLMInteractionLogger`: live table plus emitted sink. -/
structure LoggerState where
  interactions : List (String × Interaction) := []
  sink : List SinkRecord := []

/-- `_truncate_embedding_fields`, innermost step: the mutation of one
`item["embedding"]` value — base64 strings keep 10 characters, float
arrays keep 3 elements, both with a `"..."` marker; other shapes pass
through unchanged. -/
def truncEmbeddingValue : JVal → JVal
  | .str embedding =>
    if 10 < embedding.length then .str (embedding.take 10 ++ "...") else .str embedding
  | .arr embedding =>
    if 3 < embedding.length then .arr (embedding.take 3 ++ [.str "..."]) else .arr embedding
  | .null => .null
  | .bool b => .bool b
  | .num q => .num q
  | .obj fields => .obj fields

/-- `_truncate_embedding_fields`, per item of the `data` list: only dict
items with an `embedding` key are touched. -/
def truncEmbeddingItem : JVal → JVal
  | .obj fields =>
    .obj (fields.map (fun kv => if kv.1 = "embedding" then (kv.1, truncEmbeddingValue kv.2) else kv))
  | .null => .null
  | .bool b => .bool b
  | .num q => .num q
  | .str s => .str s
  | .arr xs => .arr xs

/-- `_truncate_embedding_fields`, over the value at the `data` key: only a
list is traversed. -/
def truncEmbeddingData : JVal → JVal
  | .arr data_list => .arr (data_list.map truncEmbeddingItem)
  | .null => .null
  | .bool b => .bool b
  | .num q => .num q
  | .str s => .str s
  | .obj fields => .obj fields

/-- `LLMInteractionLogger._truncate_embedding_fields` (deep copy followed by
in-place mutation is a pure transformation). -/
def truncateEmbeddingFields : JVal → JVal
  | .obj fields =>
    .obj (fields.map (fun kv => if kv.1 = "data" then (kv.1, truncEmbeddingData kv.2) else kv))
  | .null => .null
  | .bool b => .bool b
  | .num q => .num q
  | .str s => .str s
  | .arr xs => .arr xs

/-- `LLMInteractionLogger.start_interaction`. -/
def LoggerState.startInteraction (st : LoggerState) (request_id provider : String)
    (request_data : JVal) (ts : String) : LoggerState :=
  let interaction : Interaction :=
    { timestamp := ts
      request_id := request_id
      downstream_provider := provider
      downstream_request := request_data }
  { st with interactions := dictInsert request_id interaction st.interactions }

/-- `LLMInteractionLogger.complete_interaction`: silently returns when the
id was never started; otherwise fills the record in, emits it to the sink
and deletes it from the live table. -/
def LoggerState.completeInteraction (st : LoggerState) (request_id : String)
    (response_data : JVal) (processing_time : Rat) (success : Bool) (error : Option String) :
    LoggerState :=
  match dictLookup request_id st.interactions with
  | none => st
  | some interaction =>
    let interaction := { interaction with
      downstream_response := some (truncateEmbeddingFields response_data)
      processing_time := some processing_time
      status := if success then "success" else "error" }
    let interaction :=
      if optStrTruthy error then { interaction with error := error } else interaction
    { interactions := dictErase request_id st.interactions
      sink := st.sink ++ [.interaction interaction] }

/-- `LLMInteractionLogger.log_error_interaction`: completes the live record
as a failure when the id is known, else emits a minimal error-only record. -/
def LoggerState.logErrorInteraction (st : LoggerState) (request_id error context ts : String) :
    LoggerState :=
  match dictLookup request_id st.interactions with
  | some _ =>
    st.completeInteraction request_id (.obj [("error_context", .str context)]) 0 false (some error)
  | none =>
    { st with sink := st.sink ++ [.errorOnly ts request_id error context] }

/-! ## `app/models/api_models.py` and `_prepare_litellm_request`

The inbound request shapes, and the conversion to the dict sent to the
downstream call (`llm_service.py`, lines 247–310). -/

/-- `ToolCallFunction` (api_models): name and JSON-string arguments. -/
structure ToolCallFunction where
  name : String
  arguments : String

/-- `ToolCall` (api_models): a fully-formed tool call. -/
structure ToolCall where
  id : String
  type : String
  function : ToolCallFunction

/-- `ToolCallDelta` (api_models): a streamed tool-call increment, every
field optional. -/
structure ToolCallDelta where
  id : Option String := none
  type : Option String := none
  function : Option ToolCallFunction := none

/-- A chat message `content`: a plain string or a list of multi-modal
content blocks (each block an arbitrary dict/value). -/
inductive ChatContent where
  | str (s : String)
  | blocks (bs : List JVal)

/-- `ChatMessage` (api_models). -/
structure ChatMessage where
  role : String
  content : Option ChatContent := none
  name : Option String := none
  tool_calls : Option (List ToolCall) := none
  tool_call_id : Option String := none
  function_call : Option JVal := none

/-- `ChatCompletionRequest` (api_models). -/
structure ChatCompletionRequest where
  model : String
  messages : List ChatMessage
  stream : Option Bool := some false
  temperature : Option Rat := some 1
  max_tokens : Option Nat := none
  top_p : Option Rat := some 1
  frequency_penalty : Option Rat := some 0
  presence_penalty : Option Rat := some 0
  stop : Option JVal := none
  n : Option Nat := some 1
  user : Option String := none
  tools : Option (List JVal) := none
  tool_choice : Option JVal := none
  functions : Option (List JVal) := none
  function_call : Option JVal := none

/-- The `content` entry of a prepared downstream message: the original
string or block list, or an explicit `None`. -/
inductive PreparedContent where
  | str (s : String)
  | blocks (bs : List JVal)
  | null

/-- One entry of `llm_request["messages"]` (llm_service lines 255–279). -/
structure PreparedMsg where
  role : String
  content : PreparedContent
  name : Option String := none
  tool_call_id : Option String := none
  function_call : Option JVal := none
  tool_calls : Option (List ToolCall) := none

/-- The dict handed to the downstream `acompletion` call.  A key that the
source leaves out of the dict is `none`. -/
structure LLMRequest where
  model : String
  messages : List PreparedMsg
  stream : Bool
  temperature : Option Rat := none
  max_tokens : Option Nat := none
  top_p : Option Rat := none
  frequency_penalty : Option Rat := none
  presence_penalty : Option Rat := none
  stop : Option JVal := none
  n : Option Nat := none
  user : Option String := none
  tools : Option (List JVal) := none
  tool_choice : Option JVal := none
  functions : Option (List JVal) := none
  function_call : Option JVal := none

/-- Python truthiness of an optional list. -/
def optListTruthy {β : Type} : Option (List β) → Bool
  | some l => !l.isEmpty
  | none => false

/-- Python truthiness of an optional `JVal` (only the shapes that occur as
`function_call` values matter: `None` is falsy, and the source treats any
present dict/string value as truthy). -/
def optJValTruthy : Option JVal → Bool
  | none => false
  | some .null => false
  | some (.str s) => !s.isEmpty
  | some (.arr xs) => !xs.isEmpty
  | some (.obj fields) => !fields.isEmpty
  | some (.bool b) => b
  | some (.num q) => !(q = 0)

/-- Conversion of one `ChatMessage` into a downstream message dict
(llm_service lines 256–279): `content` is forwarded verbatim when present,
is allowed to be `None` when a tool/function call accompanies the message,
and defaults to `""` otherwise. -/
def prepareMessage (msg : ChatMessage) : PreparedMsg :=
  let content : PreparedContent :=
    match msg.content with
    | some (.str s) => .str s
    | some (.blocks bs) => .blocks bs
    | none =>
      if optListTruthy msg.tool_calls || optJValTruthy msg.function_call then .null else .str ""
  { role := msg.role
    content := content
    name := if optStrTruthy msg.name then msg.name else none
    tool_call_id := if optStrTruthy msg.tool_call_id then msg.tool_call_id else none
    function_call := if optJValTruthy msg.function_call then msg.function_call else none
    tool_calls := if optListTruthy msg.tool_calls then msg.tool_calls else none }

/-- `LLMService._prepare_litellm_request` (llm_service lines 247–310):
messages are converted, optional sampling parameters are copied when not
`None`, `tools` wins over legacy `functions`, and `tool_choice` wins over
legacy `function_call`; the legacy fields are forwarded under their own
keys, not renamed. -/
def prepareLitellmRequest (request : ChatCompletionRequest) : LLMRequest :=
  { model := request.model
    messages := request.messages.map prepareMessage
    stream := request.stream.getD false
    temperature := request.temperature
    max_tokens := request.max_tokens
    top_p := request.top_p
    frequency_penalty := request.frequency_penalty
    presence_penalty := request.presence_penalty
    stop := request.stop
    n := request.n
    user := request.user
    tools := request.tools
    functions := match request.tools with
      | some _ => none
      | none => request.functions
    tool_choice := request.tool_choice
    function_call := match request.tool_choice with
      | some _ => none
      | none => request.function_call }

/-! ## `_handle_stream_completion` (llm_service lines 428–637)

Provider fragments are the chunks yielded by the downstream stream.  Lines
506–522 extract `tc_id`, `tc_type`, `func_name`, `func_args` from either
attribute-shaped or dict-shaped tool-call deltas; the model represents a
delta by exactly those four extracted optional fields.  A stream that
raises after its prefix of fragments is `(chunks, some errMsg)`; a stream
that is exhausted normally is `(chunks, none)`. -/

/-- One tool-call delta of a provider fragment, after the shape-sniffing
extraction of lines 506–522. -/
structure ProviderToolCallDelta where
  id : Option String := none
  type : Option String := none
  func_name : Option String := none
  func_args : Option String := none

/-- A legacy `function_call` delta payload (dict after
`model_dump(exclude_none=True)`; a field is absent when `none`). -/
structure ProviderFCDelta where
  name : Option String := none
  arguments : Option String := none

/-- `choice.delta` of a provider fragment. -/
structure ProviderDelta where
  role : Option String := none
  content : Option String := none
  function_call : Option ProviderFCDelta := none
  tool_calls : Option (List ProviderToolCallDelta) := none

/-- One choice of a provider fragment. -/
structure ProviderChoice where
  index : Nat
  delta : ProviderDelta
  finish_reason : Option String := none

/-- One provider fragment (`chunk`). -/
structure ProviderChunk where
  id : String
  model : String
  choices : List ProviderChoice

/-- `function` part of an accumulated tool call (`{"name": ..., "arguments": ...}`;
`name` starts as `None`). -/
structure AccFunction where
  name : Option String := none
  arguments : String := ""

/-- One entry of `tool_call_accumulator`. -/
structure AccToolCall where
  id : String
  type : String := "function"
  function : AccFunction := {}

/-- The single legacy `function_call_accumulator`. -/
structure FCAcc where
  name : Option String := none
  arguments : String := ""

/-- The loop-local state of `_handle_stream_completion` (lines 434–440). -/
structure StreamLoopState where
  accumulated_content : String := ""
  chunk_count : Nat := 0
  finish_reason : Option String := none
  prompt_tokens : Nat := 0
  completion_tokens : Nat := 0
  tool_call_accumulator : List (String × AccToolCall) := []
  function_call_accumulator : Option FCAcc := none

/-- The truthiness test of the dumped `function_call` payload
(`if fc_payload:` — a dict is truthy iff nonempty). -/
def fcPayloadTruthy (fc : ProviderFCDelta) : Bool :=
  fc.name.isSome || fc.arguments.isSome

/-- Lines 476–501: accumulate a legacy `function_call` delta and decide the
`delta.function_call` field of the re-emitted chunk. -/
def applyFCDelta (facc : Option FCAcc) (fc? : Option ProviderFCDelta) :
    Option FCAcc × Option ProviderFCDelta :=
  match fc? with
  | none => (facc, none)
  | some fc =>
    if fcPayloadTruthy fc then
      let a := facc.getD { name := fc.name, arguments := "" }
      let a := if optStrTruthy fc.name then { a with name := fc.name } else a
      let a :=
        if optStrTruthy fc.arguments then
          { a with arguments := a.arguments ++ fc.arguments.getD "" }
        else a
      (some a, some fc)
    else (facc, none)

/-- The `ToolCallDelta` re-emitted for one provider tool-call delta
(lines 523–533): produced only when both `func_name` and `func_args`
are not `None`. -/
def toolCallDeltaOut (tc : ProviderToolCallDelta) : Option ToolCallDelta :=
  match tc.func_name, tc.func_args with
  | some fn, some fa =>
    some { id := tc.id, type := tc.type, function := some { name := fn, arguments := fa } }
  | _, _ => none

/-- Lines 504–549: process one tool-call delta — emit its projection and,
when it passes the `func_name is not None and func_args is not None` gate
and carries a truthy call id, fold it into the accumulator (create the
entry on first sight, overwrite `name` only when nonempty, append to
`arguments`). -/
def applyToolCallDelta (acc : List (String × AccToolCall)) (tc : ProviderToolCallDelta) :
    List (String × AccToolCall) × Option ToolCallDelta :=
  match tc.func_name, tc.func_args with
  | some fn, some fa =>
    let out : Option ToolCallDelta :=
      some { id := tc.id, type := tc.type, function := some { name := fn, arguments := fa } }
    let call_id : Option String :=
      match tc.id with
      | some s => if s.isEmpty then none else some s
      | none => none
    match call_id with
    | some cid =>
      let existing := (dictLookup cid acc).getD
        { id := cid
          type := match tc.type with
            | some t => if t.isEmpty then "function" else t
            | none => "function" }
      let existing :=
        if !fn.isEmpty then { existing with function := { existing.function with name := some fn } }
        else existing
      let existing :=
        if !fa.isEmpty then
          { existing with function :=
              { existing.function with arguments := existing.function.arguments ++ fa } }
        else existing
      (dictInsert cid existing acc, out)
    | none => (acc, out)
  | _, _ => (acc, none)

/-- Fold of `applyToolCallDelta` over the `delta.tool_calls` list,
collecting the re-emitted projections in order. -/
def applyToolCallDeltas (acc : List (String × AccToolCall)) (tcs : List ProviderToolCallDelta) :
    List (String × AccToolCall) × List ToolCallDelta :=
  tcs.foldl
    (fun p tc =>
      let r := applyToolCallDelta p.1 tc
      (r.1, p.2 ++ r.2.toList))
    (acc, [])

/-- `DeltaMessage` (api_models): the delta of a re-emitted chunk. -/
structure DeltaMessage where
  role : Option String := none
  content : Option String := none
  function_call : Option ProviderFCDelta := none
  tool_calls : Option (List ToolCallDelta) := none

/-- `ChatCompletionChunkChoice` (api_models). -/
structure ChatCompletionChunkChoice where
  index : Nat
  delta : DeltaMessage
  finish_reason : Option String := none

/-- `ChatCompletionChunk` (api_models), without the constant `object` and
wall-clock `created` fields. -/
structure ChatCompletionChunk where
  id : String
  model : String
  choices : List ChatCompletionChunkChoice

/-- The `delta.function_call` projected onto the re-emitted chunk: the
payload itself when truthy, else nothing. -/
def normalizeFC (fc? : Option ProviderFCDelta) : Option ProviderFCDelta :=
  match fc? with
  | none => none
  | some fc => if fcPayloadTruthy fc then some fc else none

/-- The public `DeltaMessage` projected from a provider delta
(lines 466–551, emission side only). -/
def normalizeDelta (d : ProviderDelta) : DeltaMessage :=
  let outs : List ToolCallDelta :=
    match d.tool_calls with
    | some tcs => if tcs.isEmpty then [] else tcs.filterMap toolCallDeltaOut
    | none => []
  { role := if optStrTruthy d.role then d.role else none
    content := if optStrTruthy d.content then d.content else none
    function_call := normalizeFC d.function_call
    tool_calls := if outs.isEmpty then none else some outs }

/-- The normalized chunk re-emitted for a provider fragment with at least
one choice (lines 553–565). -/
def normalizeChunk (chunk : ProviderChunk) : ChatCompletionChunk :=
  match chunk.choices with
  | [] => { id := chunk.id, model := chunk.model, choices := [] }
  | choice :: _ =>
    { id := chunk.id
      model := chunk.model
      choices := [{ index := choice.index
                    delta := normalizeDelta choice.delta
                    finish_reason := choice.finish_reason }] }

/-- Lines 455–463: append truthy `delta.content` to the accumulated
content and record a truthy `finish_reason` (last one wins). -/
def stepContentFinish (st : StreamLoopState) (choice : ProviderChoice) : StreamLoopState :=
  let st :=
    if optStrTruthy choice.delta.content then
      { st with accumulated_content := st.accumulated_content ++ choice.delta.content.getD "" }
    else st
  if optStrTruthy choice.finish_reason then { st with finish_reason := choice.finish_reason }
  else st

/-- The body of `async for chunk in response_stream` (lines 449–565): update
the loop state and yield at most one normalized chunk — none when
`chunk.choices` is empty. -/
def processChunk (st : StreamLoopState) (chunk : ProviderChunk) :
    StreamLoopState × Option ChatCompletionChunk :=
  let st := { st with chunk_count := st.chunk_count + 1 }
  match chunk.choices with
  | [] => (st, none)
  | choice :: _ =>
    let st := stepContentFinish st choice
    let fcRes := applyFCDelta st.function_call_accumulator choice.delta.function_call
    let st := { st with function_call_accumulator := fcRes.1 }
    let tcRes : List (String × AccToolCall) × List ToolCallDelta :=
      match choice.delta.tool_calls with
      | some tcs =>
        if tcs.isEmpty then (st.tool_call_accumulator, [])
        else applyToolCallDeltas st.tool_call_accumulator tcs
      | none => (st.tool_call_accumulator, [])
    let st := { st with tool_call_accumulator := tcRes.1 }
    let delta : DeltaMessage :=
      { role := if optStrTruthy choice.delta.role then choice.delta.role else none
        content := if optStrTruthy choice.delta.content then choice.delta.content else none
        function_call := fcRes.2
        tool_calls := if tcRes.2.isEmpty then none else some tcRes.2 }
    (st,
     some { id := chunk.id
            model := chunk.model
            choices := [{ index := choice.index
                          delta := delta
                          finish_reason := choice.finish_reason }] })

/-- The whole consumption loop: final state and ordered list of re-emitted
chunks. -/
def runStreamLoop (chunks : List ProviderChunk) :
    StreamLoopState × List ChatCompletionChunk :=
  chunks.foldl
    (fun acc chunk =>
      let r := processChunk acc.1 chunk
      (r.1, acc.2 ++ r.2.toList))
    ({}, [])

/-! ### Post-stream phase (lines 567–637) -/

/-- Python truthiness of a prepared `content` value (`msg.get("content")`). -/
def contentTruthy : PreparedContent → Bool
  | .str s => !s.isEmpty
  | .blocks bs => !bs.isEmpty
  | .null => false

/-- The list comprehension
`[msg["content"] for msg in llm_request["messages"] if msg.get("content")]`. -/
def truthyContents (messages : List PreparedMsg) : List PreparedContent :=
  messages.filterMap (fun msg => if contentTruthy msg.content then some msg.content else none)

/-- The message of the `TypeError` that `" ".join(...)` raises when an
element is not a `str` (the exact wording is incidental). -/
def joinTypeErrorMessage : String :=
  "sequence item: expected str instance, list found"

/-- Collect the elements as strings; fails when any element is not a string. -/
def seqStrs : List PreparedContent → Option (List String)
  | [] => some []
  | .str s :: rest => (seqStrs rest).map (s :: ·)
  | _ => none

/-- `" ".join(items)` — raises `TypeError` on any non-string element. -/
def strJoinSpace (items : List PreparedContent) : Except String String :=
  match seqStrs items with
  | some ss => .ok (String.intercalate " " ss)
  | none => .error joinTypeErrorMessage

/-- Lines 574–577: the prompt-token estimation performed when no usage was
seen (`prompt_tokens == 0`), which joins the truthy message contents and
may raise on multi-modal (list) content. -/
def estimatePromptTokens (messages : List PreparedMsg) (prompt_tokens : Nat) :
    Except String Nat :=
  if prompt_tokens = 0 then
    match strJoinSpace (truthyContents messages) with
    | .ok total_input_text => .ok (max 1 (total_input_text.length / 3))
    | .error e => .error e
  else .ok prompt_tokens

/-- Lines 570–572: the completion-token estimate from accumulated content. -/
def estimateCompletionTokens (st : StreamLoopState) : Nat :=
  if !st.accumulated_content.isEmpty then max 1 (st.accumulated_content.length / 3)
  else st.completion_tokens

/-- An optional string as a JSON value (`None` ↦ `null`). -/
def optStrJ : Option String → JVal
  | some s => .str s
  | none => .null

/-- One `tool_calls` entry of the response summary (lines 592–602). -/
def summaryToolCall (entry : String × AccToolCall) : JVal :=
  .obj [("id", .str entry.1),
        ("type", .str entry.2.type),
        ("function", .obj [("name", optStrJ entry.2.function.name),
                           ("arguments", .str entry.2.function.arguments)])]

/-- `response_summary` (lines 580–604). -/
def buildResponseSummary (st : StreamLoopState) (prompt_tokens completion_tokens : Nat) : JVal :=
  let base : List (String × JVal) :=
    [("content", .str st.accumulated_content),
     ("finish_reason", optStrJ st.finish_reason),
     ("chunk_count", .num st.chunk_count),
     ("estimated_tokens",
      .obj [("prompt_tokens", .num prompt_tokens),
            ("completion_tokens", .num completion_tokens),
            ("total_tokens", .num (prompt_tokens + completion_tokens))])]
  let base :=
    if st.tool_call_accumulator.isEmpty then base
    else base ++ [("tool_calls", .arr (st.tool_call_accumulator.map summaryToolCall))]
  let base :=
    match st.function_call_accumulator with
    | some f =>
      base ++ [("function_call", .obj [("name", optStrJ f.name), ("arguments", .str f.arguments)])]
    | none => base
  .obj base

/-- One frame yielded to the SSE caller: a normalized data chunk, the
terminal `data: [DONE]` sentinel, or the in-band error payload
`{"error": {"message": ..., "type": ...}}`. -/
inductive OutFrame where
  | data (chunk : ChatCompletionChunk)
  | done
  | errorPayload (message : String) (etype : String)

/-- The data chunks among the yielded frames, in order. -/
def emittedData (frames : List OutFrame) : List ChatCompletionChunk :=
  frames.filterMap (fun f => match f with | .data c => some c | _ => none)

/-- Result of a full `_handle_stream_completion` run: the frames the caller
receives and the final collector/logger states. -/
structure StreamResult where
  frames : List OutFrame
  metrics : MetricsState
  logger : LoggerState

/-- `_handle_stream_completion` (lines 428–637) over a provider stream that
yields `chunks` and then either raises (`streamErr = some e`, the single
`except` path) or is exhausted (`streamErr = none`).  On exhaustion, token
counts are estimated, the summary is logged, metrics complete with
`success=True` and `data: [DONE]` is sent; if the prompt estimation itself
raises (multi-modal content), or the provider raised, the `except` block
logs the error, completes metrics with `success=False` and sends a single
`stream_error` payload instead of the sentinel. -/
def handleStreamCompletion (hourKeyFn : Rat → String) (request_id : String)
    (messages : List PreparedMsg) (chunks : List ProviderChunk) (streamErr : Option String)
    (downstream_time now : Rat) (err_ts : String)
    (mst : MetricsState) (lst : LoggerState) : StreamResult :=
  let loop := runStreamLoop chunks
  let st := loop.1
  let emitted := loop.2.map OutFrame.data
  match streamErr with
  | some e =>
    { frames := emitted ++ [.errorPayload e "stream_error"]
      metrics := (mst.completeRequest hourKeyFn request_id false (some e) 0 0 none now).1
      logger := lst.logErrorInteraction request_id e "stream_completion" err_ts }
  | none =>
    let completion_tokens := estimateCompletionTokens st
    match estimatePromptTokens messages st.prompt_tokens with
    | .error e =>
      { frames := emitted ++ [.errorPayload e "stream_error"]
        metrics := (mst.completeRequest hourKeyFn request_id false (some e) 0 0 none now).1
        logger := lst.logErrorInteraction request_id e "stream_completion" err_ts }
    | .ok prompt_tokens =>
      let summary := buildResponseSummary st prompt_tokens completion_tokens
      { frames := emitted ++ [.done]
        metrics :=
          (mst.completeRequest hourKeyFn request_id true none
            prompt_tokens completion_tokens none now).1
        logger := lst.completeInteraction request_id summary downstream_time true none }

/-! ### Concrete fixtures for counterexamples and witnesses -/

/-- The `arguments` buffer accumulated for a call id, if the id is known. -/
def argsBufferOf (st : StreamLoopState) (call_id : String) : Option String :=
  (dictLookup call_id st.tool_call_accumulator).map (fun a => a.function.arguments)

/-- A provider fragment carrying exactly one tool-call delta. -/
def mkToolCallChunk (tc : ProviderToolCallDelta) : ProviderChunk :=
  { id := "chunk"
    model := "m"
    choices := [{ index := 0, delta := { tool_calls := some [tc] } }] }

/-- A provider fragment carrying plain content. -/
def mkContentChunk (s : String) : ProviderChunk :=
  { id := "chunk"
    model := "m"
    choices := [{ index := 0, delta := { content := some s } }] }

/-- A provider fragment with an empty `choices` list (e.g. a usage-only
chunk), as real providers emit. -/
def noChoiceChunk : ProviderChunk :=
  { id := "chunk", model := "m", choices := [] }

/-- First fragment of a split tool call: carries id, name and the first
argument piece. -/
def c1frag1 : ProviderToolCallDelta :=
  { id := some "call_1", type := some "function", func_name := some "f", func_args := some "a" }

/-- Continuation fragment of the same call id, with the provider-typical
absent function name. -/
def c1frag2 : ProviderToolCallDelta :=
  { id := some "call_1", func_name := none, func_args := some "b" }

/-- A well-formed continuation fragment that repeats id and name. -/
def c1frag2' : ProviderToolCallDelta :=
  { id := some "call_1", type := some "function", func_name := some "f", func_args := some "b" }

/-- The trivial hour-bucket function used in concrete runs. -/
def trivialHourKey : Rat → String := fun _ => "hour"

/-- A plain prepared user message. -/
def pmsgHi : PreparedMsg :=
  { role := "user", content := .str "hi" }

/-- A prepared message whose content is a nonempty multi-modal block list. -/
def pmsgBlocks : PreparedMsg :=
  { role := "user", content := .blocks [.obj [("type", .str "image_url")]] }

/-- A request context for concrete runs. -/
def ctxR1 : RequestContext :=
  { request_id := "r1", start_time := 0, model := "m" }

/-- An empty logger. -/
def lst0 : LoggerState := {}

/-- A chat message carrying multi-modal block content. -/
def msgMM : ChatMessage :=
  { role := "user", content := some (.blocks [.obj [("type", .str "image_url")]]) }

/-- A streamed chat request containing a multi-modal message. -/
def c10req : ChatCompletionRequest :=
  { model := "m", messages := [msgMM], stream := some true }

/-- A chat request carrying only legacy tool definitions. -/
def c9req : ChatCompletionRequest :=
  { model := "m"
    messages := [{ role := "user", content := some (.str "hi") }]
    functions := some [.obj [("name", .str "get_weather")]]
    function_call := some (.str "auto") }

/-! ## Association-list lemmas -/

theorem dictLookup_insert_self {α : Type} (k : String) (v : α) (l : List (String × α)) :
    dictLookup k (dictInsert k v l) = some v := by
  induction l with
  | nil => simp [dictInsert, dictLookup]
  | cons p rest ih =>
    by_cases h : p.1 = k
    · simp [dictInsert, dictLookup, h]
    · simp [dictInsert, dictLookup, h, ih]

theorem dictLookup_erase_self {α : Type} (k : String) (l : List (String × α)) :
    dictLookup k (dictErase k l) = none := by
  induction l with
  | nil => simp [dictErase, dictLookup]
  | cons p rest ih =>
    by_cases h : p.1 = k
    · simpa [dictErase, h] using ih
    · simpa [dictErase, dictLookup, h] using ih

theorem mem_dictKeys_erase {α : Type} {a k : String} {l : List (String × α)}
    (h : a ∈ dictKeys (dictErase k l)) : a ≠ k ∧ a ∈ dictKeys l := by
  induction l with
  | nil => simp [dictErase, dictKeys] at h
  | cons p rest ih =>
    by_cases hp : p.1 = k
    · have h' := ih (by simpa [dictErase, hp] using h)
      exact ⟨h'.1, by simp [dictKeys]; right; simpa [dictKeys] using h'.2⟩
    · rcases (by simpa [dictErase, dictKeys, hp] using h : a = p.1 ∨ a ∈ dictKeys (dictErase k rest)) with
        h1 | h2
      · subst h1
        exact ⟨hp, by simp [dictKeys]⟩
      · have h' := ih h2
        exact ⟨h'.1, by simp [dictKeys]; right; simpa [dictKeys] using h'.2⟩

theorem mem_dictKeys_insert {α : Type} {a k : String} {v : α} {l : List (String × α)}
    (h : a ∈ dictKeys (dictInsert k v l)) : a = k ∨ a ∈ dictKeys l := by
  induction l with
  | nil => simpa [dictInsert, dictKeys] using h
  | cons p rest ih =>
    by_cases hp : p.1 = k
    · rcases (by simpa [dictInsert, dictKeys, hp] using h : a = k ∨ a ∈ dictKeys rest) with h1 | h2
      · exact Or.inl h1
      · exact Or.inr (by simp [dictKeys]; right; simpa [dictKeys] using h2)
    · rcases (by simpa [dictInsert, dictKeys, hp] using h : a = p.1 ∨ a ∈ dictKeys (dictInsert k v rest)) with
        h1 | h2
      · exact Or.inr (by simp [dictKeys, h1])
      · rcases ih h2 with h3 | h4
        · exact Or.inl h3
        · exact Or.inr (by simp [dictKeys]; right; simpa [dictKeys] using h4)

theorem dictLookup_mem {α : Type} {k : String} {v : α} {l : List (String × α)}
    (h : dictLookup k l = some v) : (k, v) ∈ l := by
  induction l with
  | nil => simp [dictLookup] at h
  | cons p rest ih =>
    by_cases hp : p.1 = k
    · have : v = p.2 := by simpa [dictLookup, hp] using h.symm
      subst this
      have : p = (k, p.2) := by
        cases p
        simpa using hp
      simp [← this]
    · exact List.mem_cons_of_mem _ (ih (by simpa [dictLookup, hp] using h))

/-! ## Claim C6 — the token estimator

Mathlib's `⌊·⌋`/`round` on `ℚ` do not kernel-reduce, so concrete values
are obtained through `Nat`-division closed forms proved once here and
shared by the claim theorem and the counterexample. -/

theorem intToNat_floor_nat_div12 (N : Nat) : Int.toNat ⌊((N : Rat)) / (12 : Rat)⌋ = N / 12 := by
  rw [Int.floor_toNat]
  rw [show ((12 : Rat)) = ((12 : Nat) : Rat) by norm_cast]
  rw [Nat.floor_div_nat, Nat.floor_natCast]

theorem hanCountStr_le_length (s : String) : hanCountStr s ≤ s.length :=
  List.countP_le_length _

/-- Closed form of the source estimator: truncation of the rational value,
as `Nat` division. -/
theorem calcTokens_closed (s : String) :
    calculate_tokens_estimate s
      = (if s.length = 0 then 0
         else max 1 ((8 * hanCountStr s + 3 * (s.length - hanCountStr s)) / 12)) := by
  unfold calculate_tokens_estimate
  split
  · rfl
  · dsimp only
    have harith : ((hanCountStr s : Rat)) / (3 / 2) + (((s.length - hanCountStr s : Nat)) : Rat) / 4
        = (((8 * hanCountStr s + 3 * (s.length - hanCountStr s) : Nat)) : Rat) / 12 := by
      push_cast [hanCountStr_le_length s]
      ring
    rw [harith, intToNat_floor_nat_div12]

/-- Closed form of the spec's rounding estimator. -/
theorem specTokensRound_closed (s : String) :
    specTokensEstimateRound s
      = (if s.length = 0 then 0
         else max 1 ((8 * hanCountStr s + 3 * (s.length - hanCountStr s) + 6) / 12)) := by
  unfold specTokensEstimateRound
  split
  · rfl
  · dsimp only
    have harith : ((hanCountStr s : Rat)) / (3 / 2) + (((s.length - hanCountStr s : Nat)) : Rat) / 4 + 1 / 2
        = (((8 * hanCountStr s + 3 * (s.length - hanCountStr s) + 6 : Nat)) : Rat) / 12 := by
      push_cast [hanCountStr_le_length s]
      ring
    rw [round_eq, harith, intToNat_floor_nat_div12]

/-- C6 counterexample: the claim says the estimator returns
`round(han/1.5 + other/4.0)`, but on 7 non-Han characters the source
computes `int(1.75) = 1` while `round(1.75) = 2`. -/
theorem C6_counterexample :
    calculate_tokens_estimate "aaaaaaa" = 1 ∧ specTokensEstimateRound "aaaaaaa" = 2 ∧
      (1 : Nat) ≠ 2 := by
  refine ⟨?_, ?_, by decide⟩
  · rw [calcTokens_closed]
    decide
  · rw [specTokensRound_closed]
    decide

/-- C6 (amended): `calculate_tokens_estimate` is the pure function
`int(han_count / 1.5 + other_count / 4.0)` — truncation toward zero, not
rounding — floored to 1 for nonempty input; it returns 0 exactly on the
empty string. -/
theorem C6_estimator_truncates (s : String) :
    calculate_tokens_estimate s
      = (if s.length = 0 then 0
         else max 1 ((8 * hanCountStr s + 3 * (s.length - hanCountStr s)) / 12))
    ∧ (calculate_tokens_estimate s = 0 ↔ s.length = 0)
    ∧ (s.length ≠ 0 → 1 ≤ calculate_tokens_estimate s) := by
  refine ⟨calcTokens_closed s, ?_, ?_⟩
  · rw [calcTokens_closed]
    by_cases h : s.length = 0
    · simp [h]
    · simp [h]
  · intro h
    rw [calcTokens_closed]
    simp [h]

/-- Witness for C6 at a concrete input. -/
theorem C6_estimator_truncates_witness : 1 ≤ calculate_tokens_estimate "a" :=
  (C6_estimator_truncates "a").2.2 (by decide)

/-! ## Claim C7 — embedding truncation bounds -/

theorem string_length_take (s : String) (n : Nat) : (s.take n).length = min n s.length := by
  rw [String.take_eq]
  show (s.data.take n).length = _
  simpa using List.length_take n s.data

theorem dictLookup_map_keyed {α : Type} (K : String) (f : α → α) (l : List (String × α)) :
    dictLookup K (l.map (fun kv => if kv.1 = K then (kv.1, f kv.2) else kv))
      = (dictLookup K l).map f := by
  induction l with
  | nil => simp [dictLookup]
  | cons p rest ih =>
    by_cases hp : p.1 = K
    · simp [dictLookup, hp]
    · simp [dictLookup, hp, ih]

theorem truncEmbeddingValue_str_bound (w : JVal) {s : String}
    (h : truncEmbeddingValue w = .str s) : s.length ≤ 13 := by
  cases w with
  | str s0 =>
    by_cases hlen : 10 < s0.length
    · rw [truncEmbeddingValue, if_pos hlen] at h
      have hs : s0.take 10 ++ "..." = s := (JVal.str.injEq _ _) ▸ h
      rw [← hs, String.length_append, string_length_take]
      have h1 := Nat.min_le_left 10 s0.length
      have h3 : ("..." : String).length = 3 := rfl
      omega
    · rw [truncEmbeddingValue, if_neg hlen] at h
      have hs : s0 = s := (JVal.str.injEq _ _) ▸ h
      rw [← hs]
      omega
  | null => exact JVal.noConfusion h
  | bool b => exact JVal.noConfusion h
  | num q => exact JVal.noConfusion h
  | arr ys =>
    by_cases hlen : 3 < ys.length
    · rw [truncEmbeddingValue, if_pos hlen] at h
      exact JVal.noConfusion h
    · rw [truncEmbeddingValue, if_neg hlen] at h
      exact JVal.noConfusion h
  | obj gs => exact JVal.noConfusion h

theorem truncEmbeddingValue_arr_bound (w : JVal) {xs : List JVal}
    (h : truncEmbeddingValue w = .arr xs) : xs.length ≤ 4 := by
  cases w with
  | arr ys =>
    by_cases hlen : 3 < ys.length
    · rw [truncEmbeddingValue, if_pos hlen] at h
      have hs : ys.take 3 ++ [JVal.str "..."] = xs := (JVal.arr.injEq _ _) ▸ h
      rw [← hs, List.length_append, List.length_take]
      have h1 := Nat.min_le_left 3 ys.length
      simp only [List.length_singleton]
      omega
    · rw [truncEmbeddingValue, if_neg hlen] at h
      have hs : ys = xs := (JVal.arr.injEq _ _) ▸ h
      rw [← hs]
      omega
  | str s0 =>
    by_cases hlen : 10 < s0.length
    · rw [truncEmbeddingValue, if_pos hlen] at h
      exact JVal.noConfusion h
    · rw [truncEmbeddingValue, if_neg hlen] at h
      exact JVal.noConfusion h
  | null => exact JVal.noConfusion h
  | bool b => exact JVal.noConfusion h
  | num q => exact JVal.noConfusion h
  | obj gs => exact JVal.noConfusion h

/-- C7 (confirmed): in the record logged by `complete_interaction`, every
`embedding` field of an item of the `data` list is bounded — float arrays
keep at most 3 elements plus the marker (length ≤ 4) and base64 strings
keep at most 10 characters plus the marker (length ≤ 13). -/
theorem C7_embedding_truncation_bound (payload : JVal) (items : List JVal) (item e : JVal)
    (hd : (truncateEmbeddingFields payload).objLookup "data" = some (.arr items))
    (hi : item ∈ items) (he : item.objLookup "embedding" = some e) :
    (∀ xs, e = JVal.arr xs → xs.length ≤ 4) ∧ (∀ s, e = JVal.str s → s.length ≤ 13) := by
  cases payload with
  | null => simp [truncateEmbeddingFields, JVal.objLookup] at hd
  | bool b => simp [truncateEmbeddingFields, JVal.objLookup] at hd
  | num q => simp [truncateEmbeddingFields, JVal.objLookup] at hd
  | str s => simp [truncateEmbeddingFields, JVal.objLookup] at hd
  | arr xs => simp [truncateEmbeddingFields, JVal.objLookup] at hd
  | obj fields =>
    simp only [truncateEmbeddingFields, JVal.objLookup] at hd
    rw [dictLookup_map_keyed] at hd
    rcases Option.map_eq_some'.mp hd with ⟨v, hv, hvt⟩
    cases v with
    | null => simp [truncEmbeddingData] at hvt
    | bool b => simp [truncEmbeddingData] at hvt
    | num q => simp [truncEmbeddingData] at hvt
    | str s => simp [truncEmbeddingData] at hvt
    | obj gs => simp [truncEmbeddingData] at hvt
    | arr xs =>
      simp only [truncEmbeddingData, JVal.arr.injEq] at hvt
      subst hvt
      rcases List.mem_map.mp hi with ⟨x, hx, hfx⟩
      subst hfx
      cases x with
      | null => simp [truncEmbeddingItem, JVal.objLookup] at he
      | bool b => simp [truncEmbeddingItem, JVal.objLookup] at he
      | num q => simp [truncEmbeddingItem, JVal.objLookup] at he
      | str s => simp [truncEmbeddingItem, JVal.objLookup] at he
      | arr ys => simp [truncEmbeddingItem, JVal.objLookup] at he
      | obj gs =>
        simp only [truncEmbeddingItem, JVal.objLookup] at he
        rw [dictLookup_map_keyed] at he
        rcases Option.map_eq_some'.mp he with ⟨w, hw, hwt⟩
        subst hwt
        constructor
        · intro xs hxs
          exact truncEmbeddingValue_arr_bound w hxs
        · intro s hs
          exact truncEmbeddingValue_str_bound w hs

/-- Witness for C7: a five-element float embedding is logged with 4
entries. -/
theorem C7_embedding_truncation_bound_witness :
    (∀ xs, JVal.arr [.num 1, .num 2, .num 3, .str "..."] = JVal.arr xs → xs.length ≤ 4) ∧
      (∀ s, JVal.arr [.num 1, .num 2, .num 3, .str "..."] = JVal.str s → s.length ≤ 13) :=
  C7_embedding_truncation_bound
    (.obj [("data", .arr [.obj [("embedding", .arr [.num 1, .num 2, .num 3, .num 4, .num 5])]])])
    [.obj [("embedding", .arr [.num 1, .num 2, .num 3, .str "..."])]]
    (.obj [("embedding", .arr [.num 1, .num 2, .num 3, .str "..."])])
    (.arr [.num 1, .num 2, .num 3, .str "..."])
    rfl (List.mem_singleton.mpr rfl) rfl

/-! ## Claim C8 — `complete_interaction` and the live table -/

/-- C8 counterexample: completing a never-started id is a complete no-op —
in particular no error-only record is emitted to the sink, contrary to the
claim. -/
theorem C8_counterexample :
    lst0.completeInteraction "r1" (JVal.obj []) 0 true none = lst0
    ∧ (lst0.completeInteraction "r1" (JVal.obj []) 0 true none).sink = [] := by
  exact ⟨rfl, rfl⟩

/-- C8 (amended): after `complete_interaction` the live table never
contains the id; on a never-started id `complete_interaction` is a silent
no-op, and it is `log_error_interaction` that emits the minimal error-only
record for an unknown id. -/
theorem C8_complete_removes_unknown_noop (lst : LoggerState) (request_id : String)
    (response_data : JVal) (processing_time : Rat) (success : Bool) (error : Option String)
    (err ctx ts : String) :
    dictLookup request_id
        (lst.completeInteraction request_id response_data processing_time success error).interactions
      = none
    ∧ (dictLookup request_id lst.interactions = none →
        lst.completeInteraction request_id response_data processing_time success error = lst)
    ∧ (dictLookup request_id lst.interactions = none →
        lst.logErrorInteraction request_id err ctx ts
          = { lst with sink := lst.sink ++ [.errorOnly ts request_id err ctx] }) := by
  refine ⟨?_, ?_, ?_⟩
  · cases hl : dictLookup request_id lst.interactions with
    | none => simpa [LoggerState.completeInteraction, hl] using hl
    | some i => simp [LoggerState.completeInteraction, hl, dictLookup_erase_self]
  · intro h
    simp [LoggerState.completeInteraction, h]
  · intro h
    simp [LoggerState.logErrorInteraction, h]

/-- Witness for C8 at concrete inputs. -/
theorem C8_complete_removes_unknown_noop_witness :
    dictLookup "r1" (lst0.completeInteraction "r1" (JVal.obj []) 0 true none).interactions = none
    ∧ lst0.completeInteraction "r1" (JVal.obj []) 0 true none = lst0
    ∧ lst0.logErrorInteraction "r1" "boom" "ctx" "t"
        = { lst0 with sink := lst0.sink ++ [.errorOnly "t" "r1" "boom" "ctx"] } := by
  have h := C8_complete_removes_unknown_noop lst0 "r1" (JVal.obj []) 0 true none "boom" "ctx" "t"
  exact ⟨h.1, h.2.1 rfl, h.2.2 rfl⟩

/-! ## Claim C9 — legacy `functions` / `function_call` forwarding -/

/-- C9 counterexample: with only legacy fields present, the prepared
request leaves `tools`/`tool_choice` absent and forwards the legacy
definitions under their own `functions`/`function_call` keys — they are
not mapped onto the modern fields. -/
theorem C9_counterexample :
    (prepareLitellmRequest c9req).tools = none
    ∧ (prepareLitellmRequest c9req).tool_choice = none
    ∧ (prepareLitellmRequest c9req).functions = some [.obj [("name", .str "get_weather")]]
    ∧ (prepareLitellmRequest c9req).function_call = some (.str "auto")
    ∧ ¬((prepareLitellmRequest c9req).tools = c9req.functions
        ∧ (prepareLitellmRequest c9req).tool_choice = c9req.function_call) := by
  refine ⟨rfl, rfl, rfl, rfl, fun hc => Option.noConfusion hc.1⟩

/-- C9 (amended): modern fields are forwarded verbatim; the legacy fields
are forwarded under their legacy names exactly when the corresponding
modern field is absent, so `tools` and `functions` (resp. `tool_choice`
and `function_call`) are never both forwarded, the modern one winning. -/
theorem C9_tools_exclusive (r : ChatCompletionRequest) :
    (prepareLitellmRequest r).tools = r.tools
    ∧ (prepareLitellmRequest r).tool_choice = r.tool_choice
    ∧ (prepareLitellmRequest r).functions
        = (match r.tools with | some _ => none | none => r.functions)
    ∧ (prepareLitellmRequest r).function_call
        = (match r.tool_choice with | some _ => none | none => r.function_call)
    ∧ ((prepareLitellmRequest r).tools.isSome && (prepareLitellmRequest r).functions.isSome)
        = false
    ∧ ((prepareLitellmRequest r).tool_choice.isSome
        && (prepareLitellmRequest r).function_call.isSome) = false := by
  refine ⟨rfl, rfl, rfl, rfl, ?_, ?_⟩
  · cases ht : r.tools with
    | none => simp [prepareLitellmRequest, ht]
    | some ts => simp [prepareLitellmRequest, ht]
  · cases ht : r.tool_choice with
    | none => simp [prepareLitellmRequest, ht]
    | some tc => simp [prepareLitellmRequest, ht]

/-! ## Claim C4 — MetricsCollector lifecycle invariants -/

theorem mem_dequeAppend_self (maxlen : Nat) (l : List RequestMetrics) (x : RequestMetrics)
    (h : 1 ≤ maxlen) : x ∈ dequeAppend maxlen l x := by
  unfold dequeAppend
  dsimp only
  split
  · rw [List.drop_append_eq_append_drop]
    have hz : (l ++ [x]).length - maxlen - l.length = 0 := by
      simp only [List.length_append, List.length_singleton]
      omega
    rw [hz]
    simp
  · simp

theorem mem_of_mem_dequeAppend {maxlen : Nat} {l : List RequestMetrics} {x y : RequestMetrics}
    (h : y ∈ dequeAppend maxlen l x) : y ∈ l ∨ y = x := by
  unfold dequeAppend at h
  dsimp only at h
  have hy : y ∈ l ++ [x] := by
    split at h
    · exact List.mem_of_mem_drop h
    · exact h
  rcases List.mem_append.mp hy with h1 | h2
  · exact Or.inl h1
  · exact Or.inr (List.mem_singleton.mp h2)

theorem updateAggregatedStats_active (hourKeyFn : Rat → String) (st : MetricsState)
    (m : RequestMetrics) (now : Rat) :
    (st.updateAggregatedStats hourKeyFn m now).active = st.active := by
  simp only [MetricsState.updateAggregatedStats]
  split <;> rfl

theorem updateAggregatedStats_completed (hourKeyFn : Rat → String) (st : MetricsState)
    (m : RequestMetrics) (now : Rat) :
    (st.updateAggregatedStats hourKeyFn m now).completed = st.completed := by
  simp only [MetricsState.updateAggregatedStats]
  split <;> rfl

theorem updateAggregatedStats_maxHistory (hourKeyFn : Rat → String) (st : MetricsState)
    (m : RequestMetrics) (now : Rat) :
    (st.updateAggregatedStats hourKeyFn m now).maxHistory = st.maxHistory := by
  simp only [MetricsState.updateAggregatedStats]
  split <;> rfl

theorem completeRequest_of_none (hourKeyFn : Rat → String) (st : MetricsState)
    (request_id : String) (success : Bool) (error_message : Option String)
    (pt ct : Nat) (tt : Option Nat) (now : Rat)
    (h : dictLookup request_id st.active = none) :
    st.completeRequest hourKeyFn request_id success error_message pt ct tt now = (st, none) := by
  simp [MetricsState.completeRequest, h]

theorem completeRequest_of_lookup (hourKeyFn : Rat → String) (st : MetricsState)
    (request_id : String) (success : Bool) (error_message : Option String)
    (pt ct : Nat) (tt : Option Nat) (now : Rat) (m0 : RequestMetrics)
    (h : dictLookup request_id st.active = some m0) :
    (st.completeRequest hourKeyFn request_id success error_message pt ct tt now).2
        = some (completedEntry m0 success error_message pt ct tt now)
    ∧ (st.completeRequest hourKeyFn request_id success error_message pt ct tt now).1.active
        = dictErase request_id st.active
    ∧ (st.completeRequest hourKeyFn request_id success error_message pt ct tt now).1.completed
        = dequeAppend st.maxHistory st.completed
            (completedEntry m0 success error_message pt ct tt now) := by
  refine ⟨?_, ?_, ?_⟩
  · simp [MetricsState.completeRequest, h, completedEntry]
  · simp only [MetricsState.completeRequest, h, completedEntry]
    rw [updateAggregatedStats_active]
  · simp only [MetricsState.completeRequest, h, completedEntry]
    rw [updateAggregatedStats_completed]

theorem mem_pairs_dictInsert {α : Type} {p : String × α} {k : String} {v : α}
    {l : List (String × α)} (h : p ∈ dictInsert k v l) : p = (k, v) ∨ p ∈ l := by
  induction l with
  | nil => simpa [dictInsert] using h
  | cons q rest ih =>
    by_cases hq : q.1 = k
    · rcases (by simpa [dictInsert, hq] using h : p = (k, v) ∨ p ∈ rest) with h1 | h1
      · exact Or.inl h1
      · exact Or.inr (List.mem_cons_of_mem _ h1)
    · rcases (by simpa [dictInsert, hq] using h : p = q ∨ p ∈ dictInsert k v rest) with h1 | h1
      · exact Or.inr (by simp [h1])
      · rcases ih h1 with h2 | h2
        · exact Or.inl h2
        · exact Or.inr (List.mem_cons_of_mem _ h2)

theorem minv_start {started : List String} {st : MetricsState} (h : MInv started st)
    {context : RequestContext} (hfresh : context.request_id ∉ started) :
    MInv (started ++ [context.request_id]) (st.startRequest context).1 := by
  obtain ⟨h0, h1, h2, h3⟩ := h
  refine ⟨?_, ?_, ?_, ?_⟩
  · intro p hp
    simp only [MetricsState.startRequest] at hp
    rcases mem_pairs_dictInsert hp with hh | hh
    · rw [hh]
      rfl
    · exact h0 p hh
  · intro a ha
    simp only [MetricsState.startRequest, activeIds] at ha
    rcases mem_dictKeys_insert ha with h4 | h4
    · simp [h4]
    · exact List.mem_append_left _ (h1 a h4)
  · intro c hc
    exact List.mem_append_left _ (h2 c hc)
  · intro a ha
    simp only [MetricsState.startRequest, activeIds] at ha
    rcases mem_dictKeys_insert ha with h4 | h4
    · subst h4
      intro hmem
      exact hfresh (h2 _ hmem)
    · exact h3 a h4

theorem minv_complete {started : List String} {st : MetricsState} (h : MInv started st)
    (hourKeyFn : Rat → String) (request_id : String) (success : Bool)
    (error_message : Option String) (pt ct : Nat) (tt : Option Nat) (now : Rat) :
    MInv started
      (st.completeRequest hourKeyFn request_id success error_message pt ct tt now).1 := by
  obtain ⟨h0, h1, h2, h3⟩ := h
  cases hl : dictLookup request_id st.active with
  | none =>
    rw [completeRequest_of_none hourKeyFn st request_id success error_message pt ct tt now hl]
    exact ⟨h0, h1, h2, h3⟩
  | some m0 =>
    obtain ⟨-, hact, hcomp⟩ :=
      completeRequest_of_lookup hourKeyFn st request_id success error_message pt ct tt now m0 hl
    have hkey : m0.request_id = request_id := h0 _ (dictLookup_mem hl)
    have hkeyStarted : request_id ∈ started :=
      h1 _ (List.mem_map_of_mem Prod.fst (dictLookup_mem hl))
    have hcm : ∀ c ∈ completedIds
        (st.completeRequest hourKeyFn request_id success error_message pt ct tt now).1,
        c ∈ completedIds st ∨ c = request_id := by
      intro c hc
      simp only [completedIds, hcomp] at hc
      rcases List.mem_map.mp hc with ⟨y, hy, hyc⟩
      rcases mem_of_mem_dequeAppend hy with hy2 | hy2
      · exact Or.inl (hyc ▸ List.mem_map_of_mem _ hy2)
      · right
        rw [← hyc, hy2, completedEntry]
        exact hkey
    refine ⟨?_, ?_, ?_, ?_⟩
    · intro p hp
      rw [hact] at hp
      exact h0 p (List.mem_of_mem_filter hp)
    · intro a ha
      simp only [activeIds, hact] at ha
      exact h1 a (mem_dictKeys_erase ha).2
    · intro c hc
      rcases hcm c hc with hc2 | hc2
      · exact h2 c hc2
      · rw [hc2]
        exact hkeyStarted
    · intro a ha hcon
      simp only [activeIds, hact] at ha
      obtain ⟨hane, hamem⟩ := mem_dictKeys_erase ha
      rcases hcm a hcon with hc2 | hc2
      · exact h3 a hamem hc2
      · exact hane hc2

theorem minv_reset (started : List String) (st : MetricsState) :
    MInv started st.resetStats := by
  refine ⟨?_, ?_, ?_, ?_⟩ <;> intro x hx <;>
    simp [MetricsState.resetStats, activeIds, completedIds, dictKeys] at hx

theorem minv_run (hourKeyFn : Rat → String) :
    ∀ (ops : List MOp) (st : MetricsState) (started : List String),
      MInv started st →
      (∀ i ∈ startIdsOf ops, i ∉ started) →
      (startIdsOf ops).Nodup →
      MInv (started ++ startIdsOf ops) (st.runOps hourKeyFn ops) := by
  intro ops
  induction ops with
  | nil =>
    intro st started h _ _
    simpa [MetricsState.runOps, startIdsOf] using h
  | cons op rest ih =>
    intro st started h hfresh hnodup
    cases op with
    | start context =>
      have hids : startIdsOf (MOp.start context :: rest)
          = context.request_id :: startIdsOf rest := by
        simp [startIdsOf]
      rw [hids] at hfresh hnodup ⊢
      have hfresh0 : context.request_id ∉ started := hfresh _ (List.mem_cons_self _ _)
      have hnodup' := List.nodup_cons.mp hnodup
      have step := minv_start h hfresh0
      have hrun : st.runOps hourKeyFn (MOp.start context :: rest)
          = (st.startRequest context).1.runOps hourKeyFn rest := by
        simp [MetricsState.runOps, MetricsState.applyOp]
      rw [hrun]
      have final := ih (st.startRequest context).1 (started ++ [context.request_id]) step
        (by
          intro i hi
          simp only [List.mem_append, List.mem_singleton]
          rintro (hcon | hcon)
          · exact hfresh i (List.mem_cons_of_mem _ hi) hcon
          · exact hnodup'.1 (hcon ▸ hi))
        hnodup'.2
      simpa [List.append_assoc] using final
    | complete request_id success error_message pt ct tt now =>
      have hids : startIdsOf (MOp.complete request_id success error_message pt ct tt now :: rest)
          = startIdsOf rest := by
        simp [startIdsOf]
      rw [hids] at hfresh hnodup ⊢
      have step := minv_complete h hourKeyFn request_id success error_message pt ct tt now
      have hrun : st.runOps hourKeyFn
            (MOp.complete request_id success error_message pt ct tt now :: rest)
          = ((st.completeRequest hourKeyFn request_id success error_message
              pt ct tt now).1).runOps hourKeyFn rest := by
        simp [MetricsState.runOps, MetricsState.applyOp]
      rw [hrun]
      exact ih _ started step hfresh hnodup
    | reset =>
      have hids : startIdsOf (MOp.reset :: rest) = startIdsOf rest := by
        simp [startIdsOf]
      rw [hids] at hfresh hnodup ⊢
      have hrun : st.runOps hourKeyFn (MOp.reset :: rest)
          = (st.resetStats).runOps hourKeyFn rest := by
        simp [MetricsState.runOps, MetricsState.applyOp]
      rw [hrun]
      exact ih _ started (minv_reset started st.resetStats) hfresh hnodup

/-- C4 (confirmed): with unique `start_request` ids, no request id is ever
in both the active table and the completed history of any state reachable
by a sequence of collector operations; `complete_request` on an active id
atomically moves the stamped entry from the active table to the history;
and `complete_request` on an unknown id returns `None` and leaves the
state unchanged. -/
theorem C4_metrics_lifecycle :
    (∀ (hourKeyFn : Rat → String) (max_history : Nat) (ops : List MOp),
      (startIdsOf ops).Nodup →
      ∀ id, ¬(id ∈ activeIds ((metricsInit max_history).runOps hourKeyFn ops)
              ∧ id ∈ completedIds ((metricsInit max_history).runOps hourKeyFn ops)))
    ∧ (∀ (hourKeyFn : Rat → String) (st : MetricsState) (request_id : String)
        (success : Bool) (error_message : Option String) (pt ct : Nat) (tt : Option Nat)
        (now : Rat) (m0 : RequestMetrics),
        dictLookup request_id st.active = some m0 → 1 ≤ st.maxHistory →
        (st.completeRequest hourKeyFn request_id success error_message pt ct tt now).2
            = some (completedEntry m0 success error_message pt ct tt now)
        ∧ request_id ∉ activeIds
            (st.completeRequest hourKeyFn request_id success error_message pt ct tt now).1
        ∧ completedEntry m0 success error_message pt ct tt now
            ∈ (st.completeRequest hourKeyFn request_id success error_message pt ct tt now).1.completed)
    ∧ (∀ (hourKeyFn : Rat → String) (st : MetricsState) (request_id : String)
        (success : Bool) (error_message : Option String) (pt ct : Nat) (tt : Option Nat)
        (now : Rat),
        dictLookup request_id st.active = none →
        st.completeRequest hourKeyFn request_id success error_message pt ct tt now
          = (st, none)) := by
  refine ⟨?_, ?_, ?_⟩
  · intro hourKeyFn max_history ops hnodup id hcon
    have hinit : MInv [] (metricsInit max_history) := by
      refine ⟨?_, ?_, ?_, ?_⟩ <;> intro x hx <;>
        simp [metricsInit, activeIds, completedIds, dictKeys] at hx
    have hrun := minv_run hourKeyFn ops (metricsInit max_history) [] hinit
      (by intro i _ hcon2; simp at hcon2) hnodup
    exact hrun.2.2.2 id hcon.1 hcon.2
  · intro hourKeyFn st request_id success error_message pt ct tt now m0 hl hmax
    obtain ⟨hsnd, hact, hcomp⟩ :=
      completeRequest_of_lookup hourKeyFn st request_id success error_message pt ct tt now m0 hl
    refine ⟨hsnd, ?_, ?_⟩
    · intro hmem
      simp only [activeIds, hact] at hmem
      exact (mem_dictKeys_erase hmem).1 rfl
    · rw [hcomp]
      exact mem_dequeAppend_self _ _ _ hmax
  · exact completeRequest_of_none

/-- Witness for C4: a start followed by its completion, plus the
lookup-based parts at a one-entry collector. -/
theorem C4_metrics_lifecycle_witness :
    (∀ id, ¬(id ∈ activeIds ((metricsInit 10000).runOps trivialHourKey
              [.start ctxR1, .complete "r1" true none 5 3 none 1])
            ∧ id ∈ completedIds ((metricsInit 10000).runOps trivialHourKey
              [.start ctxR1, .complete "r1" true none 5 3 none 1])))
    ∧ ((metricsInit 10000).startRequest ctxR1).1.completeRequest trivialHourKey
        "missing" false none 0 0 none 1 = (((metricsInit 10000).startRequest ctxR1).1, none) := by
  constructor
  · exact C4_metrics_lifecycle.1 trivialHourKey 10000
      [.start ctxR1, .complete "r1" true none 5 3 none 1]
      (by simp [startIdsOf, ctxR1])
  · exact C4_metrics_lifecycle.2.2 trivialHourKey _ "missing" false none 0 0 none 1 rfl

/-! ## Streaming aggregator — emission side (claims C2/C3) -/

theorem string_join_cons (x : String) (l : List String) :
    String.join (x :: l) = x ++ String.join l := by
  simp only [String.join_eq]
  rfl

theorem applyFCDelta_snd (facc : Option FCAcc) (fc? : Option ProviderFCDelta) :
    (applyFCDelta facc fc?).2 = normalizeFC fc? := by
  cases fc? with
  | none => rfl
  | some fc =>
    by_cases h : fcPayloadTruthy fc <;> simp [applyFCDelta, normalizeFC, h]

theorem applyToolCallDelta_snd (acc : List (String × AccToolCall)) (tc : ProviderToolCallDelta) :
    (applyToolCallDelta acc tc).2 = toolCallDeltaOut tc := by
  cases hn : tc.func_name with
  | none => simp [applyToolCallDelta, toolCallDeltaOut, hn]
  | some fn =>
    cases ha : tc.func_args with
    | none => simp [applyToolCallDelta, toolCallDeltaOut, hn, ha]
    | some fa =>
      simp only [applyToolCallDelta, toolCallDeltaOut, hn, ha]
      split <;> rfl

theorem applyToolCallDeltas_aux (tcs : List ProviderToolCallDelta) :
    ∀ (acc : List (String × AccToolCall)) (outs : List ToolCallDelta),
      (tcs.foldl
        (fun p tc =>
          let r := applyToolCallDelta p.1 tc
          (r.1, p.2 ++ r.2.toList))
        (acc, outs)).2
      = outs ++ tcs.filterMap toolCallDeltaOut := by
  induction tcs with
  | nil => intro acc outs; simp
  | cons tc rest ih =>
    intro acc outs
    simp only [List.foldl_cons]
    rw [ih]
    rw [applyToolCallDelta_snd]
    cases h : toolCallDeltaOut tc <;> simp [h, List.filterMap_cons]

theorem applyToolCallDeltas_snd (acc : List (String × AccToolCall))
    (tcs : List ProviderToolCallDelta) :
    (applyToolCallDeltas acc tcs).2 = tcs.filterMap toolCallDeltaOut := by
  unfold applyToolCallDeltas
  rw [applyToolCallDeltas_aux]
  simp

theorem processChunk_snd (st : StreamLoopState) (chunk : ProviderChunk) :
    (processChunk st chunk).2
      = (match chunk.choices with
         | [] => none
         | _ :: _ => some (normalizeChunk chunk)) := by
  cases hch : chunk.choices with
  | nil => simp [processChunk, hch]
  | cons choice rest =>
    simp only [processChunk, hch, normalizeChunk, normalizeDelta]
    cases htc : choice.delta.tool_calls with
    | none => simp [applyFCDelta_snd, htc]
    | some tcs =>
      cases tcs with
      | nil => simp [applyFCDelta_snd, htc, applyToolCallDeltas_snd]
      | cons t ts =>
        simp [applyFCDelta_snd, htc, applyToolCallDeltas_snd]
        rw [applyToolCallDeltas_snd]

theorem runLoop_aux (chunks : List ProviderChunk) :
    ∀ (st : StreamLoopState) (outs : List ChatCompletionChunk),
      (chunks.foldl
        (fun acc chunk =>
          let r := processChunk acc.1 chunk
          (r.1, acc.2 ++ r.2.toList))
        (st, outs)).2
      = outs ++ (chunks.filter (fun c => !c.choices.isEmpty)).map normalizeChunk := by
  induction chunks with
  | nil => intro st outs; simp
  | cons c rest ih =>
    intro st outs
    simp only [List.foldl_cons]
    rw [ih]
    rw [processChunk_snd]
    cases hch : c.choices with
    | nil => simp [hch]
    | cons choice crest => simp [hch]

/-- The chunks re-emitted by the consumption loop: exactly the normalized
projections of the fragments with a nonempty `choices` list, in arrival
order. -/
theorem runStreamLoop_snd (chunks : List ProviderChunk) :
    (runStreamLoop chunks).2
      = (chunks.filter (fun c => !c.choices.isEmpty)).map normalizeChunk := by
  unfold runStreamLoop
  rw [runLoop_aux]
  simp

theorem stepContentFinish_proj (st : StreamLoopState) (choice : ProviderChoice) :
    (stepContentFinish st choice).prompt_tokens = st.prompt_tokens
    ∧ (stepContentFinish st choice).completion_tokens = st.completion_tokens
    ∧ (stepContentFinish st choice).tool_call_accumulator = st.tool_call_accumulator
    ∧ (stepContentFinish st choice).function_call_accumulator = st.function_call_accumulator := by
  unfold stepContentFinish
  dsimp only
  refine ⟨?_, ?_, ?_, ?_⟩ <;> (split <;> split <;> rfl)

theorem processChunk_tokens (st : StreamLoopState) (chunk : ProviderChunk) :
    (processChunk st chunk).1.prompt_tokens = st.prompt_tokens
    ∧ (processChunk st chunk).1.completion_tokens = st.completion_tokens := by
  cases hch : chunk.choices with
  | nil => simp [processChunk, hch]
  | cons choice rest =>
    simp only [processChunk, hch]
    constructor
    · exact (stepContentFinish_proj _ _).1
    · exact (stepContentFinish_proj _ _).2.1

theorem runLoop_tokens_aux (chunks : List ProviderChunk) :
    ∀ (st : StreamLoopState) (outs : List ChatCompletionChunk),
      (chunks.foldl
        (fun acc chunk =>
          let r := processChunk acc.1 chunk
          (r.1, acc.2 ++ r.2.toList))
        (st, outs)).1.prompt_tokens = st.prompt_tokens
      ∧ (chunks.foldl
          (fun acc chunk =>
            let r := processChunk acc.1 chunk
            (r.1, acc.2 ++ r.2.toList))
          (st, outs)).1.completion_tokens = st.completion_tokens := by
  induction chunks with
  | nil => intro st outs; simp
  | cons c rest ih =>
    intro st outs
    simp only [List.foldl_cons]
    constructor
    · rw [(ih _ _).1, (processChunk_tokens st c).1]
    · rw [(ih _ _).2, (processChunk_tokens st c).2]

/-- The stream loop never touches the token counters (no usage handling in
the source loop): they stay at their initial 0. -/
theorem runStreamLoop_tokens (chunks : List ProviderChunk) :
    (runStreamLoop chunks).1.prompt_tokens = 0
    ∧ (runStreamLoop chunks).1.completion_tokens = 0 := by
  unfold runStreamLoop
  exact ⟨(runLoop_tokens_aux chunks _ _).1, (runLoop_tokens_aux chunks _ _).2⟩

/-! ## Claim C2 — pass-through re-emission -/

theorem emittedData_append (a b : List OutFrame) :
    emittedData (a ++ b) = emittedData a ++ emittedData b := by
  simp [emittedData]

theorem emittedData_map_data (xs : List ChatCompletionChunk) :
    emittedData (xs.map OutFrame.data) = xs := by
  induction xs with
  | nil => rfl
  | cons x rest ih => simpa [emittedData] using ih

theorem handleStream_frames (hourKeyFn : Rat → String) (request_id : String)
    (messages : List PreparedMsg) (chunks : List ProviderChunk) (streamErr : Option String)
    (downstream_time now : Rat) (err_ts : String) (mst : MetricsState) (lst : LoggerState) :
    (handleStreamCompletion hourKeyFn request_id messages chunks streamErr
        downstream_time now err_ts mst lst).frames
      = (runStreamLoop chunks).2.map OutFrame.data
        ++ (match streamErr with
            | some e => [OutFrame.errorPayload e "stream_error"]
            | none =>
              match estimatePromptTokens messages (runStreamLoop chunks).1.prompt_tokens with
              | .error e => [OutFrame.errorPayload e "stream_error"]
              | .ok _ => [OutFrame.done]) := by
  cases streamErr with
  | some e => rfl
  | none =>
    cases hpe : estimatePromptTokens messages (runStreamLoop chunks).1.prompt_tokens with
    | error e => simp [handleStreamCompletion, hpe]
    | ok pt => simp [handleStreamCompletion, hpe]

/-- C2 (amended): the caller receives, as data chunks, exactly the
normalized projections of the provider fragments whose `choices` list is
nonempty, in arrival order; fragments with an empty `choices` list are
consumed for bookkeeping but never re-emitted. -/
theorem C2_ordered_reemission (hourKeyFn : Rat → String) (request_id : String)
    (messages : List PreparedMsg) (chunks : List ProviderChunk) (streamErr : Option String)
    (downstream_time now : Rat) (err_ts : String) (mst : MetricsState) (lst : LoggerState) :
    emittedData (handleStreamCompletion hourKeyFn request_id messages chunks streamErr
        downstream_time now err_ts mst lst).frames
      = (chunks.filter (fun c => !c.choices.isEmpty)).map normalizeChunk := by
  rw [handleStream_frames, emittedData_append, emittedData_map_data, runStreamLoop_snd]
  have htail : ∀ (fr : List OutFrame),
      (∀ f ∈ fr, (match f with | OutFrame.data c => some c | _ => none) = none) →
      emittedData fr = [] := by
    intro fr h
    simp only [emittedData, List.filterMap_eq_nil_iff]
    exact h
  rw [htail, List.append_nil]
  cases streamErr with
  | some e => intro f hf; simp at hf; simp [hf]
  | none =>
    cases hpe : estimatePromptTokens messages (runStreamLoop chunks).1.prompt_tokens with
    | error e => intro f hf; simp at hf; simp [hf]
    | ok pt => intro f hf; simp at hf; simp [hf]

/-- C2 counterexample: a stream of one fragment with an empty `choices`
list (as usage-only provider chunks are) produces zero re-emitted chunks,
not one per fragment. -/
theorem C2_counterexample :
    (emittedData (handleStreamCompletion trivialHourKey "r1" [] [noChoiceChunk] none
        0 0 "t" (metricsInit 10000) lst0).frames).length = 0
    ∧ ([noChoiceChunk] : List ProviderChunk).length = 1
    ∧ (0 : Nat) ≠ 1 := by
  refine ⟨rfl, rfl, by decide⟩

/-! ## Claim C3 — mid-stream provider failure -/

theorem handleStream_err_metrics (hourKeyFn : Rat → String) (request_id : String)
    (messages : List PreparedMsg) (chunks : List ProviderChunk) (e : String)
    (downstream_time now : Rat) (err_ts : String) (mst : MetricsState) (lst : LoggerState) :
    (handleStreamCompletion hourKeyFn request_id messages chunks (some e)
        downstream_time now err_ts mst lst).metrics
      = (mst.completeRequest hourKeyFn request_id false (some e) 0 0 none now).1 := rfl

/-- C3 (confirmed): when the provider stream raises after its fragments
(each carrying a choice), the caller receives exactly the normalized
chunks of those fragments, in order, followed by a single
`{"error": {"message": e, "type": "stream_error"}}` payload, and the
request moves to the completed history with `success = False` and leaves
the active set. -/
theorem C3_midstream_error (hourKeyFn : Rat → String) (ctx : RequestContext)
    (messages : List PreparedMsg) (chunks : List ProviderChunk) (e : String)
    (downstream_time now : Rat) (err_ts : String) (mst : MetricsState) (lst : LoggerState)
    (hmax : 1 ≤ mst.maxHistory)
    (hch : ∀ c ∈ chunks, c.choices ≠ []) :
    (handleStreamCompletion hourKeyFn ctx.request_id messages chunks (some e)
        downstream_time now err_ts ((mst.startRequest ctx).1) lst).frames
      = chunks.map (fun c => OutFrame.data (normalizeChunk c))
        ++ [OutFrame.errorPayload e "stream_error"]
    ∧ (∃ m ∈ (handleStreamCompletion hourKeyFn ctx.request_id messages chunks (some e)
          downstream_time now err_ts ((mst.startRequest ctx).1) lst).metrics.completed,
        m.request_id = ctx.request_id ∧ m.success = false)
    ∧ ctx.request_id ∉ activeIds (handleStreamCompletion hourKeyFn ctx.request_id messages
        chunks (some e) downstream_time now err_ts ((mst.startRequest ctx).1) lst).metrics := by
  have hfilter : chunks.filter (fun c => !c.choices.isEmpty) = chunks := by
    rw [List.filter_eq_self]
    intro c hc
    simpa using hch c hc
  have hl : dictLookup ctx.request_id ((mst.startRequest ctx).1).active
      = some (startEntry ctx) := by
    simp only [MetricsState.startRequest]
    exact dictLookup_insert_self _ _ _
  obtain ⟨-, hact, hcomp⟩ := completeRequest_of_lookup hourKeyFn ((mst.startRequest ctx).1)
    ctx.request_id false (some e) 0 0 none now _ hl
  refine ⟨?_, ?_, ?_⟩
  · rw [handleStream_frames, runStreamLoop_snd, hfilter, List.map_map]
    rfl
  · refine ⟨completedEntry (startEntry ctx) false (some e) 0 0 none now, ?_, rfl, rfl⟩
    rw [handleStream_err_metrics, hcomp]
    exact mem_dequeAppend_self _ _ _ hmax
  · rw [handleStream_err_metrics]
    intro hmem
    simp only [activeIds, hact] at hmem
    exact (mem_dictKeys_erase hmem).1 rfl

/-- Witness for C3 at a concrete two-state run. -/
theorem C3_midstream_error_witness :
    (handleStreamCompletion trivialHourKey ctxR1.request_id [] [mkContentChunk "hi"] (some "boom")
        0 0 "t" (((metricsInit 10000).startRequest ctxR1).1) lst0).frames
      = [mkContentChunk "hi"].map (fun c => OutFrame.data (normalizeChunk c))
        ++ [OutFrame.errorPayload "boom" "stream_error"]
    ∧ (∃ m ∈ (handleStreamCompletion trivialHourKey ctxR1.request_id [] [mkContentChunk "hi"]
          (some "boom") 0 0 "t" (((metricsInit 10000).startRequest ctxR1).1) lst0).metrics.completed,
        m.request_id = ctxR1.request_id ∧ m.success = false)
    ∧ ctxR1.request_id ∉ activeIds (handleStreamCompletion trivialHourKey ctxR1.request_id []
        [mkContentChunk "hi"] (some "boom") 0 0 "t"
        (((metricsInit 10000).startRequest ctxR1).1) lst0).metrics :=
  C3_midstream_error trivialHourKey ctxR1 [] [mkContentChunk "hi"] "boom" 0 0 "t"
    (metricsInit 10000) lst0 (by decide)
    (by
      intro c hc
      rw [List.mem_singleton] at hc
      subst hc
      simp [mkContentChunk])

/-! ## Claim C1 — tool-call argument reassembly -/

theorem applyToolCallDelta_args (acc : List (String × AccToolCall)) (f : ProviderToolCallDelta)
    (cid fn fa : String) (hid : f.id = some cid) (hcid : cid.isEmpty = false)
    (hn : f.func_name = some fn) (ha : f.func_args = some fa) :
    (dictLookup cid (applyToolCallDelta acc f).1).map (fun a => a.function.arguments)
      = some ((((dictLookup cid acc).map (fun a => a.function.arguments)).getD "") ++ fa) := by
  cases hlk : dictLookup cid acc with
  | none =>
    simp only [applyToolCallDelta, hn, ha, hid, hcid, hlk]
    split_ifs with h1 h2 h2 <;>
      simp_all [dictLookup_insert_self, String.isEmpty_iff, String.append_empty]
  | some a =>
    simp only [applyToolCallDelta, hn, ha, hid, hcid, hlk]
    split_ifs with h1 h2 h2 <;>
      simp_all [dictLookup_insert_self, String.isEmpty_iff, String.append_empty]

theorem foldToolCallArgs (cid : String) (hcid : cid.isEmpty = false) :
    ∀ (frs : List ProviderToolCallDelta) (acc : List (String × AccToolCall)),
      (∀ f ∈ frs, f.id = some cid ∧ f.func_name.isSome ∧ f.func_args.isSome) →
      frs ≠ [] →
      (dictLookup cid (frs.foldl (fun a f => (applyToolCallDelta a f).1) acc)).map
          (fun a => a.function.arguments)
        = some ((((dictLookup cid acc).map (fun a => a.function.arguments)).getD "")
            ++ String.join (frs.map (fun f => f.func_args.getD ""))) := by
  intro frs
  induction frs with
  | nil => intro acc _ hne; exact absurd rfl hne
  | cons f rest ih =>
    intro acc hall hne
    obtain ⟨hid, hnS, haS⟩ := hall f (List.mem_cons_self _ _)
    obtain ⟨fn, hn⟩ := Option.isSome_iff_exists.mp hnS
    obtain ⟨fa, ha⟩ := Option.isSome_iff_exists.mp haS
    have hstep := applyToolCallDelta_args acc f cid fn fa hid hcid hn ha
    cases hrest : rest with
    | nil =>
      simp only [List.foldl_cons, List.foldl_nil, List.map_cons, List.map_nil, ha,
        Option.getD_some]
      rw [hstep]
      rw [string_join_cons]
      rw [show String.join ([] : List String) = "" from rfl, String.append_empty]
    | cons g grest =>
      rw [← hrest]
      have hne' : rest ≠ [] := by rw [hrest]; exact List.cons_ne_nil _ _
      simp only [List.foldl_cons]
      rw [ih _ (fun x hx => hall x (List.mem_cons_of_mem _ hx)) hne']
      rw [hstep]
      simp only [List.map_cons, ha, Option.getD_some, Option.map_some]
      rw [string_join_cons, String.append_assoc]

theorem processChunk_mkToolCall_acc (st : StreamLoopState) (f : ProviderToolCallDelta) :
    (processChunk st (mkToolCallChunk f)).1.tool_call_accumulator
      = (applyToolCallDelta st.tool_call_accumulator f).1 := by
  simp [processChunk, mkToolCallChunk, applyToolCallDeltas, stepContentFinish, applyFCDelta,
    optStrTruthy]

theorem runLoop_mkToolCall_acc (frs : List ProviderToolCallDelta) :
    ∀ (st : StreamLoopState) (outs : List ChatCompletionChunk),
      ((frs.map mkToolCallChunk).foldl
        (fun acc chunk =>
          let r := processChunk acc.1 chunk
          (r.1, acc.2 ++ r.2.toList))
        (st, outs)).1.tool_call_accumulator
      = frs.foldl (fun a f => (applyToolCallDelta a f).1) st.tool_call_accumulator := by
  induction frs with
  | nil => intro st outs; rfl
  | cons f rest ih =>
    intro st outs
    simp only [List.map_cons, List.foldl_cons]
    rw [ih]
    rw [processChunk_mkToolCall_acc]

/-- C1 counterexample: two fragments share call id `call_1` and split the
argument string `"ab"`, but the second one — like every real provider
continuation delta — carries no `function.name`; the aggregator's
`func_name is not None and func_args is not None` gate drops it, leaving
`arguments_buffer = "a"` instead of `"ab"`. -/
theorem C1_counterexample :
    argsBufferOf (runStreamLoop ([c1frag1, c1frag2].map mkToolCallChunk)).1 "call_1" = some "a"
    ∧ "a" ≠ "ab" := by
  refine ⟨by decide, by decide⟩

/-- C1 (amended): for fragments sharing one truthy call id that each also
carry a non-`None` function name and non-`None` arguments fragment, the
accumulated `arguments_buffer` for that id is exactly the concatenation of
the argument pieces, in order, for any number of fragments. -/
theorem C1_args_concat (frs : List ProviderToolCallDelta) (cid : String)
    (hcid : cid ≠ "") (hne : frs ≠ [])
    (hall : ∀ f ∈ frs, f.id = some cid ∧ f.func_name.isSome ∧ f.func_args.isSome) :
    argsBufferOf (runStreamLoop (frs.map mkToolCallChunk)).1 cid
      = some (String.join (frs.map (fun f => f.func_args.getD ""))) := by
  have hcid' : cid.isEmpty = false := by
    cases h : cid.isEmpty
    · rfl
    · exact absurd ((String.isEmpty_iff _).mp h) hcid
  unfold argsBufferOf runStreamLoop
  rw [runLoop_mkToolCall_acc]
  rw [foldToolCallArgs cid hcid' frs [] hall hne]
  rfl

/-- Witness for C1 on a two-piece split of `"ab"` with the name repeated. -/
theorem C1_args_concat_witness :
    argsBufferOf (runStreamLoop ([c1frag1, c1frag2'].map mkToolCallChunk)).1 "call_1"
      = some (String.join ([c1frag1, c1frag2'].map (fun f => f.func_args.getD ""))) :=
  C1_args_concat [c1frag1, c1frag2'] "call_1" (by decide) (List.cons_ne_nil _ _)
    (by
      intro f hf
      rcases List.mem_cons.mp hf with h | h
      · subst h
        exact ⟨rfl, rfl, rfl⟩
      · rw [List.mem_singleton] at h
        subst h
        exact ⟨rfl, rfl, rfl⟩)

/-! ## Claim C5 — post-stream token estimation -/

/-- C5 counterexample: the stream path estimates `completion_tokens` as
`max(1, len // 3)` — here 3 for ten characters — while the repository's
`calculate_tokens_estimate` (the spec's TokenEstimator) gives 2; the
aggregator does not apply TokenEstimator. -/
theorem C5_counterexample :
    ((handleStreamCompletion trivialHourKey "r1" [pmsgHi] [mkContentChunk "aaaaaaaaaa"] none
        0 0 "t" (((metricsInit 10000).startRequest ctxR1).1) lst0).metrics.completed.map
        (fun m => m.completion_tokens)) = [3]
    ∧ calculate_tokens_estimate "aaaaaaaaaa" = 2
    ∧ (3 : Nat) ≠ 2 := by
  refine ⟨by decide, ?_, by decide⟩
  rw [calcTokens_closed]
  decide

/-- C5 (amended): on normal exhaustion with string-joinable input,
metrics complete with `success = True`, `prompt_tokens =
max(1, len(" ".join(truthy contents)) // 3)` and `completion_tokens =
max(1, len(accumulated content) // 3)` (0 when no content accumulated),
and the `[DONE]` sentinel is the last frame; `calculate_tokens_estimate`
is not involved. -/
theorem C5_stream_token_estimates (hourKeyFn : Rat → String) (ctx : RequestContext)
    (messages : List PreparedMsg) (chunks : List ProviderChunk)
    (downstream_time now : Rat) (err_ts : String) (mst : MetricsState) (lst : LoggerState)
    (txt : String)
    (hjoin : strJoinSpace (truthyContents messages) = .ok txt)
    (hmax : 1 ≤ mst.maxHistory) :
    (∃ m ∈ (handleStreamCompletion hourKeyFn ctx.request_id messages chunks none
        downstream_time now err_ts ((mst.startRequest ctx).1) lst).metrics.completed,
      m.request_id = ctx.request_id ∧ m.success = true
      ∧ m.prompt_tokens = max 1 (txt.length / 3)
      ∧ m.completion_tokens
          = (if !(runStreamLoop chunks).1.accumulated_content.isEmpty
             then max 1 ((runStreamLoop chunks).1.accumulated_content.length / 3) else 0))
    ∧ (handleStreamCompletion hourKeyFn ctx.request_id messages chunks none
        downstream_time now err_ts ((mst.startRequest ctx).1) lst).frames.getLast?
      = some OutFrame.done := by
  have hpe : estimatePromptTokens messages (runStreamLoop chunks).1.prompt_tokens
      = .ok (max 1 (txt.length / 3)) := by
    rw [(runStreamLoop_tokens chunks).1]
    simp [estimatePromptTokens, hjoin]
  have hmet : (handleStreamCompletion hourKeyFn ctx.request_id messages chunks none
        downstream_time now err_ts ((mst.startRequest ctx).1) lst).metrics
      = (((mst.startRequest ctx).1).completeRequest hourKeyFn ctx.request_id true none
          (max 1 (txt.length / 3)) (estimateCompletionTokens (runStreamLoop chunks).1)
          none now).1 := by
    simp [handleStreamCompletion, hpe]
  have hl : dictLookup ctx.request_id ((mst.startRequest ctx).1).active
      = some (startEntry ctx) := by
    simp only [MetricsState.startRequest]
    exact dictLookup_insert_self _ _ _
  obtain ⟨-, hact, hcomp⟩ := completeRequest_of_lookup hourKeyFn ((mst.startRequest ctx).1)
    ctx.request_id true none (max 1 (txt.length / 3))
    (estimateCompletionTokens (runStreamLoop chunks).1) none now _ hl
  constructor
  · refine ⟨completedEntry (startEntry ctx) true none (max 1 (txt.length / 3))
      (estimateCompletionTokens (runStreamLoop chunks).1) none now, ?_, rfl, rfl, rfl, ?_⟩
    · rw [hmet, hcomp]
      exact mem_dequeAppend_self _ _ _ hmax
    · show estimateCompletionTokens (runStreamLoop chunks).1 = _
      unfold estimateCompletionTokens
      rw [(runStreamLoop_tokens chunks).2]
  · rw [handleStream_frames, hpe]
    exact List.getLast?_concat _

/-- Witness for C5 on a one-fragment stream with content `"hi"`. -/
theorem C5_stream_token_estimates_witness :
    (∃ m ∈ (handleStreamCompletion trivialHourKey ctxR1.request_id [pmsgHi]
        [mkContentChunk "hi"] none 0 0 "t" (((metricsInit 10000).startRequest ctxR1).1)
        lst0).metrics.completed,
      m.request_id = ctxR1.request_id ∧ m.success = true
      ∧ m.prompt_tokens = max 1 ("hi".length / 3)
      ∧ m.completion_tokens
          = (if !(runStreamLoop [mkContentChunk "hi"]).1.accumulated_content.isEmpty
             then max 1 ((runStreamLoop [mkContentChunk "hi"]).1.accumulated_content.length / 3)
             else 0))
    ∧ (handleStreamCompletion trivialHourKey ctxR1.request_id [pmsgHi] [mkContentChunk "hi"]
        none 0 0 "t" (((metricsInit 10000).startRequest ctxR1).1) lst0).frames.getLast?
      = some OutFrame.done :=
  C5_stream_token_estimates trivialHourKey ctxR1 [pmsgHi] [mkContentChunk "hi"] 0 0 "t"
    (metricsInit 10000) lst0 "hi" rfl (by decide)

/-! ## Claim C10 — multi-modal content breaks the stream epilogue -/

theorem seqStrs_blocks_none {items : List PreparedContent} {bs : List JVal}
    (h : PreparedContent.blocks bs ∈ items) : seqStrs items = none := by
  induction items with
  | nil => simp at h
  | cons c rest ih =>
    cases c with
    | str s =>
      rcases List.mem_cons.mp h with h1 | h1
      · exact PreparedContent.noConfusion h1
      · simp [seqStrs, ih h1]
    | blocks bs' => rfl
    | null => rfl

theorem estimatePromptTokens_blocks (messages : List PreparedMsg) (bs : List JVal)
    (hbs : bs ≠ [])
    (hmem : ∃ m ∈ messages, m.content = PreparedContent.blocks bs) :
    estimatePromptTokens messages 0 = .error joinTypeErrorMessage := by
  obtain ⟨m, hm, hc⟩ := hmem
  have hbs' : bs.isEmpty = false := by
    cases bs with
    | nil => exact absurd rfl hbs
    | cons b brest => rfl
  have hmemT : PreparedContent.blocks bs ∈ truthyContents messages := by
    apply List.mem_filterMap.mpr
    exact ⟨m, hm, by simp [hc, contentTruthy, hbs']⟩
  simp [estimatePromptTokens, strJoinSpace, seqStrs_blocks_none hmemT]

/-- C10 (confirmed): for a streamed request whose forwarded messages
include one with a nonempty multi-modal block list as content, the
post-stream prompt estimation raises a `TypeError` inside
`" ".join(...)`, so even after a fully successful provider stream the
caller gets a `stream_error` payload, never the `[DONE]` sentinel, and
the request completes in metrics with `success = False`. -/
theorem C10_multimodal_breaks_stream (hourKeyFn : Rat → String) (ctx : RequestContext)
    (req : ChatCompletionRequest) (chunks : List ProviderChunk)
    (downstream_time now : Rat) (err_ts : String) (mst : MetricsState) (lst : LoggerState)
    (hmax : 1 ≤ mst.maxHistory)
    (hmm : ∃ m ∈ req.messages, ∃ bs, m.content = some (ChatContent.blocks bs) ∧ bs ≠ []) :
    (handleStreamCompletion hourKeyFn ctx.request_id (prepareLitellmRequest req).messages
        chunks none downstream_time now err_ts ((mst.startRequest ctx).1) lst).frames.getLast?
      = some (OutFrame.errorPayload joinTypeErrorMessage "stream_error")
    ∧ (∀ f ∈ (handleStreamCompletion hourKeyFn ctx.request_id
          (prepareLitellmRequest req).messages chunks none downstream_time now err_ts
          ((mst.startRequest ctx).1) lst).frames, f ≠ OutFrame.done)
    ∧ (∃ m ∈ (handleStreamCompletion hourKeyFn ctx.request_id
          (prepareLitellmRequest req).messages chunks none downstream_time now err_ts
          ((mst.startRequest ctx).1) lst).metrics.completed,
        m.request_id = ctx.request_id ∧ m.success = false) := by
  obtain ⟨m, hm, bs, hc, hbs⟩ := hmm
  have hmem' : ∃ pm ∈ (prepareLitellmRequest req).messages,
      pm.content = PreparedContent.blocks bs := by
    refine ⟨prepareMessage m, ?_, ?_⟩
    · exact List.mem_map_of_mem _ hm
    · simp [prepareMessage, hc]
  have hpe : estimatePromptTokens (prepareLitellmRequest req).messages
      (runStreamLoop chunks).1.prompt_tokens = .error joinTypeErrorMessage := by
    rw [(runStreamLoop_tokens chunks).1]
    exact estimatePromptTokens_blocks _ bs hbs hmem'
  have hmet : (handleStreamCompletion hourKeyFn ctx.request_id
        (prepareLitellmRequest req).messages chunks none downstream_time now err_ts
        ((mst.startRequest ctx).1) lst).metrics
      = (((mst.startRequest ctx).1).completeRequest hourKeyFn ctx.request_id false
          (some joinTypeErrorMessage) 0 0 none now).1 := by
    simp [handleStreamCompletion, hpe]
  have hl : dictLookup ctx.request_id ((mst.startRequest ctx).1).active
      = some (startEntry ctx) := by
    simp only [MetricsState.startRequest]
    exact dictLookup_insert_self _ _ _
  obtain ⟨-, hact, hcomp⟩ := completeRequest_of_lookup hourKeyFn ((mst.startRequest ctx).1)
    ctx.request_id false (some joinTypeErrorMessage) 0 0 none now _ hl
  refine ⟨?_, ?_, ?_⟩
  · rw [handleStream_frames, hpe]
    exact List.getLast?_concat _
  · intro f hf
    rw [handleStream_frames, hpe] at hf
    rcases List.mem_append.mp hf with h1 | h1
    · rcases List.mem_map.mp h1 with ⟨c, -, hfc⟩
      rw [← hfc]
      intro hcon
      exact OutFrame.noConfusion hcon
    · rw [List.mem_singleton] at h1
      subst h1
      intro hcon
      exact OutFrame.noConfusion hcon
  · refine ⟨completedEntry (startEntry ctx) false (some joinTypeErrorMessage) 0 0 none now,
      ?_, rfl, rfl⟩
    rw [hmet, hcomp]
    exact mem_dequeAppend_self _ _ _ hmax

/-- Witness for C10: a request with one image-block message and an empty
provider stream. -/
theorem C10_multimodal_breaks_stream_witness :
    (handleStreamCompletion trivialHourKey ctxR1.request_id
        (prepareLitellmRequest c10req).messages [] none 0 0 "t"
        (((metricsInit 10000).startRequest ctxR1).1) lst0).frames.getLast?
      = some (OutFrame.errorPayload joinTypeErrorMessage "stream_error")
    ∧ (∀ f ∈ (handleStreamCompletion trivialHourKey ctxR1.request_id
          (prepareLitellmRequest c10req).messages [] none 0 0 "t"
          (((metricsInit 10000).startRequest ctxR1).1) lst0).frames, f ≠ OutFrame.done)
    ∧ (∃ m ∈ (handleStreamCompletion trivialHourKey ctxR1.request_id
          (prepareLitellmRequest c10req).messages [] none 0 0 "t"
          (((metricsInit 10000).startRequest ctxR1).1) lst0).metrics.completed,
        m.request_id = ctxR1.request_id ∧ m.success = false) :=
  C10_multimodal_breaks_stream trivialHourKey ctxR1 c10req [] 0 0 "t" (metricsInit 10000) lst0
    (by decide)
    ⟨msgMM, List.mem_singleton.mpr rfl,
      [JVal.obj [("type", JVal.str "image_url")]], rfl, List.cons_ne_nil _ _⟩
